import Mathlib

/-!
# Mathopd 1.4b5, `main.c`: start-up, privilege drop, signal flags, forked requests

A shallow embedding of `src/src/main.c`.  The process is a record `Proc` holding the
kernel-side attributes the code manipulates (descriptor table, user and group ids,
resource limits, root and working directory, signal dispositions), the globals of
`main.c`, and the chronological trace of the calls issued so far.

Every call into the operating system or into a collaborator appends one `Event`
carrying the source line of the call, the call with its arguments and the value
it returned.  Calls whose outcome depends on things outside the process
(memory, file system, network, user database, process table) consult the
`World`: `World.ok line iter` tells whether the call at source line `line`, in
its `iter`-th execution (loop iteration, 0 outside loops), is free of such an
external failure.  When it is, the POSIX.1 success semantics of the call
applies (which may still refuse, e.g. for lack of privilege):

* `open`, `dup` and `socket` return the lowest descriptor not in use;
* `dup2` and `close` depend on the descriptor table only;
* `setuid`, `seteuid` and `setgid` follow POSIX.1 with saved ids: a caller with
  appropriate privileges sets the real, effective and saved id, anybody else
  may only switch the effective id to the real or saved one;
* for `setuid` the appropriate privileges are an effective user id of 0, or
  the capability to set user ids held by a process of any user id
  (`World.cap_setuid`), or, on kernels that follow the BSD rule
  (`World.bsd_setuid`), an argument equal to the effective user id; the other
  calls that need privilege are issued by `main` with effective user id 0 only;
* `chroot` and `initgroups` are for the superuser only;
* `setrlimit` refuses a soft limit above the hard limit, and a raised hard
  limit unless the caller is the superuser.

The functions of `main.c` keep their names; `main` is cut into the phases
`main_fds`, `main_config`, `main_chroot`, `main_privdrop`, `main_core`,
`main_pidfile` and `main_daemon`, each annotated with its source lines.
-/

namespace Mathopd

/-! ## Data model -/

/-- The object an open descriptor refers to. -/
inductive File
  | path (p : String)
  | socket (n : Nat)
  deriving DecidableEq, Repr

/-- A resource limit pair, `struct rlimit`. -/
structure Rlimit where
  rlim_cur : Nat
  rlim_max : Nat
  deriving DecidableEq, Repr

/-- The two fields of `struct passwd` that `main` reads. -/
structure Passwd where
  pw_uid : Nat
  pw_gid : Nat
  deriving DecidableEq, Repr

/-- A listener, `struct server` (the `next` link is the list structure). -/
structure Server where
  addr : Nat
  port : Nat
  s_name : Option String
  fd : Int
  deriving DecidableEq, Repr

/-- The signals `main.c` names. -/
inductive Signal
  | SIGHUP | SIGINT | SIGQUIT | SIGUSR1 | SIGUSR2 | SIGPIPE | SIGTERM | SIGCHLD
  deriving DecidableEq, Repr

/-- The six handler functions of `main.c`, lines 111-139. -/
inductive SigHandler
  | sigterm | sighup | sigusr1 | sigusr2 | sigchld | sigquit
  deriving DecidableEq, Repr

/-- A signal disposition: default, ignore, or one of the handlers. -/
inductive Disposition
  | SIG_DFL
  | SIG_IGN
  | handler (h : SigHandler)
  deriving DecidableEq, Repr

/-- The two resources `main` queries. -/
inductive Resource
  | RLIMIT_NOFILE | RLIMIT_CORE
  deriving DecidableEq, Repr

/-- Flags passed to `open`. -/
inductive OFlag
  | O_RDWR | O_WRONLY | O_CREAT | O_APPEND
  deriving DecidableEq, Repr

/-- The `fcntl` commands used, with their argument. -/
inductive FcntlCmd
  | F_SETFD_CLOEXEC
  | F_SETFL_NONBLOCK
  | F_SETFL_0
  deriving DecidableEq, Repr

/-- A call issued by the process, with its arguments. -/
inductive Call
  | getrlimit (r : Resource)
  | setrlimit (r : Resource) (cur max : Nat)
  | close (fd : Int)
  | open_ (path : String) (flags : List OFlag)
  | dup (fd : Int)
  | dup2 (oldfd newfd : Int)
  | config (filename : Option String)
  | socket
  | setsockopt (fd : Int)
  | fcntl (fd : Int) (cmd : FcntlCmd)
  | bind (fd : Int) (addr port : Nat)
  | listen (fd : Int) (backlog : Nat)
  | chroot (path : String)
  | chdir (path : String)
  | geteuid
  | setuid (uid : Nat)
  | seteuid (uid : Nat)
  | setgid (gid : Nat)
  | getpwnam (name : String)
  | initgroups (name : String) (gid : Nat)
  | umask (mask : Int)
  | fork
  | setsid
  | sigaction (sig : Signal) (d : Disposition)
  | getpid
  | ftruncate (fd : Int)
  | write (fd : Int) (data : String)
  | time
  | base64init
  | httpd_main
  | log_d (msg : String)
  | lerror (msg : String)
  | handler
  deriving DecidableEq, Repr

/-- One entry of the call trace: source line, call, returned value
(for `getpwnam`, 0 stands for the null pointer and 1 for an entry; for
`config`, 1 stands for a returned message and 0 for none; for the
collaborators `handler` and `httpd_main`, which run arbitrary code, the event
marks the entry into the call). -/
structure Event where
  line : Nat
  call : Call
  rv : Int
  deriving DecidableEq, Repr

/-- The descriptor table. -/
abbrev Fds := Int → Option File

/-- User and group identity of the process. -/
structure Ids where
  ruid : Nat
  euid : Nat
  suid : Nat
  rgid : Nat
  egid : Nat
  sgid : Nat
  groups : List Nat
  deriving DecidableEq, Repr

/-- The state of the process: kernel-side attributes, the globals of `main.c`
and of the configuration, and the trace of calls. -/
structure Proc where
  fds : Fds
  nofile : Rlimit
  core : Rlimit
  ids : Ids
  root : String
  cwd : String
  umask : Int
  sigdisp : Signal → Disposition
  pid : Int
  gotsigterm : Int
  gotsighup : Int
  gotsigusr1 : Int
  gotsigusr2 : Int
  gotsigchld : Int
  gotsigquit : Int
  debug : Int
  fcm : Int
  stayroot : Int
  my_pid : Int
  forked : Int
  servers : List Server
  rootdir : Option String
  user_name : Option String
  coredir : Option String
  pid_filename : Option String
  trace : List Event

/-- What `config` leaves behind: its return value and the globals it sets
(declared in `mathopd.h`, defined outside `main.c`). -/
structure ConfigResult where
  message : Option String
  servers : List Server
  rootdir : Option String
  user_name : Option String
  coredir : Option String
  pid_filename : Option String
  stayroot : Int
  fcm : Int

/-- The environment of a run: which calls fail for external reasons, what the
kernel counts as appropriate privileges for `setuid` besides an effective user
id of 0 (`cap_setuid`: the process holds the capability to set user ids;
`bsd_setuid`: `setuid` with the effective user id as argument sets the real and
saved user id as well), the user and group databases, what `fork` returns at
each call site (and the process id of the child when it returns 0), and the
collaborators `config` and `httpd_main`. -/
structure World where
  ok : Nat → Nat → Bool
  cap_setuid : Bool
  bsd_setuid : Bool
  passwd : String → Option Passwd
  grouplist : String → List Nat
  fork_ret : Nat → Int
  child_pid : Nat → Int
  config : Option String → ConfigResult
  httpd_main : Proc → Proc

/-- How a piece of code ends: it falls through with a value, the process
terminates with an exit status, the process spins forever, or the process is
terminated by a signal. -/
inductive Outcome (α : Type)
  | ret (a : α) (s : Proc)
  | exit (code : Int) (s : Proc)
  | hang (s : Proc)
  | killed (sig : Signal) (s : Proc)

/-- The final state of an outcome. -/
def Outcome.state {α : Type} : Outcome α → Proc
  | .ret _ s => s
  | .exit _ s => s
  | .hang s => s
  | .killed _ s => s

/-- Sequencing: continue with `k` when the first part falls through. -/
def Outcome.bind {α β : Type} (o : Outcome α) (k : α → Proc → Outcome β) : Outcome β :=
  match o with
  | .ret a s => k a s
  | .exit c s => .exit c s
  | .hang s => .hang s
  | .killed g s => .killed g s

/-! ## Kernel model -/

/-- Append an event to the trace. -/
def record (s : Proc) (line : Nat) (c : Call) (rv : Int) : Proc :=
  { s with trace := s.trace ++ [⟨line, c, rv⟩] }

/-- Descriptor table update. -/
def setfd (t : Fds) (fd : Int) (v : Option File) : Fds :=
  fun j => if j = fd then v else t j

/-- The object descriptor `fd` refers to; negative numbers are never descriptors. -/
def lookup (t : Fds) (fd : Int) : Option File :=
  if fd < 0 then none else t fd

/-- The lowest descriptor number not in use, below the soft descriptor limit. -/
def lowestFree (limit : Nat) (t : Fds) : Option Nat :=
  (List.range limit).find? (fun i => (t (i : Int)).isNone)

/-- Allocation of a new descriptor for object `f`: the lowest free number, or
failure (-1) when `ok` is false or the table is full. -/
def alloc (ok : Bool) (limit : Nat) (f : File) (t : Fds) : Int × Fds :=
  if ok then
    match lowestFree limit t with
    | some n => ((n : Int), setfd t (n : Int) (some f))
    | none => (-1, t)
  else (-1, t)

/-- Kernel effect of `dup(fd)`. -/
def k_dup (ok : Bool) (limit : Nat) (fd : Int) (t : Fds) : Int × Fds :=
  match lookup t fd with
  | none => (-1, t)
  | some f => alloc ok limit f t

/-- Kernel effect of `dup2(oldfd, newfd)`. -/
def k_dup2 (oldfd newfd : Int) (t : Fds) : Int × Fds :=
  match lookup t oldfd with
  | none => (-1, t)
  | some f =>
    if newfd < 0 then (-1, t)
    else if newfd = oldfd then (newfd, t)
    else (newfd, setfd t newfd (some f))

/-- Kernel effect of `close(fd)`. -/
def k_close (fd : Int) (t : Fds) : Int × Fds :=
  match lookup t fd with
  | none => (-1, t)
  | some _ => (0, setfd t fd none)

/-- Kernel effect of `setrlimit`: the soft limit may not exceed the hard limit,
and only the superuser may raise the hard limit. -/
def k_setrlimit (ok : Bool) (euid : Nat) (rl old : Rlimit) : Int × Rlimit :=
  if ok = true ∧ rl.rlim_cur ≤ rl.rlim_max ∧ (rl.rlim_max ≤ old.rlim_max ∨ euid = 0) then (0, rl)
  else (-1, old)

/-- Kernel effect of `setuid(uid)` (POSIX.1 with saved ids): a caller with
appropriate privileges sets all three user ids; anybody else may only set the
effective id to the real or saved id.  The caller has appropriate privileges
when its effective user id is 0, when it holds the capability to set user ids
(`cap`), or, under the BSD rule (`bsd`), when `uid` is its effective user id. -/
def k_setuid (ok cap bsd : Bool) (uid : Nat) (i : Ids) : Int × Ids :=
  if ok then
    if i.euid = 0 ∨ cap = true ∨ (bsd = true ∧ uid = i.euid) then
      (0, { i with ruid := uid, euid := uid, suid := uid })
    else if uid = i.ruid ∨ uid = i.suid then (0, { i with euid := uid })
    else (-1, i)
  else (-1, i)

/-- Kernel effect of `seteuid(uid)`. -/
def k_seteuid (ok : Bool) (uid : Nat) (i : Ids) : Int × Ids :=
  if ok then
    if i.euid = 0 ∨ uid = i.ruid ∨ uid = i.suid then (0, { i with euid := uid })
    else (-1, i)
  else (-1, i)

/-- Kernel effect of `setgid(gid)`. -/
def k_setgid (ok : Bool) (gid : Nat) (i : Ids) : Int × Ids :=
  if ok then
    if i.euid = 0 then (0, { i with rgid := gid, egid := gid, sgid := gid })
    else if gid = i.rgid ∨ gid = i.sgid then (0, { i with egid := gid })
    else (-1, i)
  else (-1, i)

/-- Effect of `initgroups(name, gid)`: superuser only; the supplementary groups
become `gid` and the groups the group database lists for `name`. -/
def k_initgroups (ok : Bool) (gid : Nat) (groups : List Nat) (i : Ids) : Int × Ids :=
  if ok = true ∧ i.euid = 0 then (0, { i with groups := gid :: groups }) else (-1, i)

/-- Result of a call whose only modelled aspect is whether it fails. -/
def k_plain (ok : Bool) : Int :=
  if ok then 0 else -1

/-! ## Calls as issued by the program -/

/-- Source `getrlimit(resource, &rl)`: the value stored in `rl` is the limit
pair of the process; on failure `rl` is not read by the program. -/
def sys_getrlimit (w : World) (line : Nat) (r : Resource) (s : Proc) : Int × Proc :=
  let rv := k_plain (w.ok line 0)
  (rv, record s line (.getrlimit r) rv)

/-- Source `setrlimit(RLIMIT_NOFILE, &rl)`. -/
def sys_setrlimit_nofile (w : World) (line : Nat) (rl : Rlimit) (s : Proc) : Int × Proc :=
  let r := k_setrlimit (w.ok line 0) s.ids.euid rl s.nofile
  (r.1, record { s with nofile := r.2 } line (.setrlimit .RLIMIT_NOFILE rl.rlim_cur rl.rlim_max) r.1)

/-- Source `setrlimit(RLIMIT_CORE, &rl)`. -/
def sys_setrlimit_core (w : World) (line : Nat) (rl : Rlimit) (s : Proc) : Int × Proc :=
  let r := k_setrlimit (w.ok line 0) s.ids.euid rl s.core
  (r.1, record { s with core := r.2 } line (.setrlimit .RLIMIT_CORE rl.rlim_cur rl.rlim_max) r.1)

/-- Source `getpid()`. -/
def sys_getpid (line : Nat) (s : Proc) : Int × Proc :=
  (s.pid, record s line .getpid s.pid)

/-- Source `geteuid()`. -/
def sys_geteuid (line : Nat) (s : Proc) : Nat × Proc :=
  (s.ids.euid, record s line .geteuid s.ids.euid)

/-- Source `fork()`, seen from the process that continues: the value returned
is `World.fork_ret`; when it is 0 we are the new child, whose process id is
`World.child_pid`. -/
def sys_fork (w : World) (line : Nat) (s : Proc) : Int × Proc :=
  let rv := w.fork_ret line
  (rv, record { s with pid := if rv = 0 then w.child_pid line else s.pid } line .fork rv)

/-- Source `open(path, flags, ...)`. -/
def sys_open (w : World) (line iter : Nat) (path : String) (flags : List OFlag) (s : Proc) :
    Int × Proc :=
  let r := alloc (w.ok line iter) s.nofile.rlim_cur (.path path) s.fds
  (r.1, record { s with fds := r.2 } line (.open_ path flags) r.1)

/-- Source `socket(AF_INET, SOCK_STREAM, 0)`; `iter` names the new socket. -/
def sys_socket (w : World) (line iter : Nat) (s : Proc) : Int × Proc :=
  let r := alloc (w.ok line iter) s.nofile.rlim_cur (.socket iter) s.fds
  (r.1, record { s with fds := r.2 } line .socket r.1)

/-- Source `dup(fd)`. -/
def sys_dup (w : World) (line iter : Nat) (fd : Int) (s : Proc) : Int × Proc :=
  let r := k_dup (w.ok line iter) s.nofile.rlim_cur fd s.fds
  (r.1, record { s with fds := r.2 } line (.dup fd) r.1)

/-- Source `dup2(oldfd, newfd)`. -/
def sys_dup2 (line : Nat) (oldfd newfd : Int) (s : Proc) : Int × Proc :=
  let r := k_dup2 oldfd newfd s.fds
  (r.1, record { s with fds := r.2 } line (.dup2 oldfd newfd) r.1)

/-- Source `close(fd)`. -/
def sys_close (line : Nat) (fd : Int) (s : Proc) : Int × Proc :=
  let r := k_close fd s.fds
  (r.1, record { s with fds := r.2 } line (.close fd) r.1)

/-- A call on descriptor `fd` that changes nothing in the modelled state
(`fcntl`, `setsockopt`, `bind`, `listen`, `ftruncate`, `write`): it fails when
the descriptor is not open or for an external reason. -/
def sys_on_fd (w : World) (line iter : Nat) (c : Call) (fd : Int) (s : Proc) : Int × Proc :=
  let rv := k_plain (w.ok line iter && (lookup s.fds fd).isSome)
  (rv, record s line c rv)

/-- Source `chroot(path)`: superuser only. -/
def sys_chroot (w : World) (line : Nat) (path : String) (s : Proc) : Int × Proc :=
  let rv := k_plain (w.ok line 0 && decide (s.ids.euid = 0))
  (rv, record { s with root := if rv = 0 then path else s.root } line (.chroot path) rv)

/-- Source `chdir(path)`; the working directory is kept as the path last
changed to. -/
def sys_chdir (w : World) (line : Nat) (path : String) (s : Proc) : Int × Proc :=
  let rv := k_plain (w.ok line 0)
  (rv, record { s with cwd := if rv = 0 then path else s.cwd } line (.chdir path) rv)

/-- Source `setuid(uid)`. -/
def sys_setuid (w : World) (line : Nat) (uid : Nat) (s : Proc) : Int × Proc :=
  let r := k_setuid (w.ok line 0) w.cap_setuid w.bsd_setuid uid s.ids
  (r.1, record { s with ids := r.2 } line (.setuid uid) r.1)

/-- Source `seteuid(uid)`. -/
def sys_seteuid (w : World) (line : Nat) (uid : Nat) (s : Proc) : Int × Proc :=
  let r := k_seteuid (w.ok line 0) uid s.ids
  (r.1, record { s with ids := r.2 } line (.seteuid uid) r.1)

/-- Source `setgid(gid)`. -/
def sys_setgid (w : World) (line : Nat) (gid : Nat) (s : Proc) : Int × Proc :=
  let r := k_setgid (w.ok line 0) gid s.ids
  (r.1, record { s with ids := r.2 } line (.setgid gid) r.1)

/-- Source `initgroups(name, gid)`. -/
def sys_initgroups (w : World) (line : Nat) (name : String) (gid : Nat) (s : Proc) : Int × Proc :=
  let r := k_initgroups (w.ok line 0) gid (w.grouplist name) s.ids
  (r.1, record { s with ids := r.2 } line (.initgroups name gid) r.1)

/-- Source `getpwnam(name)`: the entry of the user database, or null when
there is none or the lookup fails. -/
def sys_getpwnam (w : World) (line : Nat) (name : String) (s : Proc) : Option Passwd × Proc :=
  let pwd := if w.ok line 0 then w.passwd name else none
  (pwd, record s line (.getpwnam name) (if pwd.isSome then 1 else 0))

/-- Source `umask(mask)`: never fails, returns the previous mask. -/
def sys_umask (line : Nat) (mask : Int) (s : Proc) : Int × Proc :=
  (s.umask, record { s with umask := mask % 512 } line (.umask mask) s.umask)

/-- A call without descriptor argument that changes nothing in the modelled
state (`setsid`, `time`, `base64initialize`). -/
def sys_other (w : World) (line : Nat) (c : Call) (s : Proc) : Int × Proc :=
  let rv := k_plain (w.ok line 0)
  (rv, record s line c rv)

/-- Collaborator `log_d(...)`: only the call is recorded. -/
def log_d (line : Nat) (msg : String) (s : Proc) : Proc :=
  record s line (.log_d msg) 0

/-- Collaborator `lerror(...)`: only the call is recorded. -/
def lerror (line : Nat) (msg : String) (s : Proc) : Proc :=
  record s line (.lerror msg) 0

/-! ## `mysignal`, lines 59-67 -/

/-- Source `mysignal(sig, f)`: installs disposition `d` for `sig` through
`sigaction`; the event carries the line of the `mysignal` call. -/
def mysignal (line : Nat) (sig : Signal) (d : Disposition) (s : Proc) : Int × Proc :=
  (0, record { s with sigdisp := fun x => if x = sig then d else s.sigdisp x } line
    (.sigaction sig d) 0)

/-! ## `die`, lines 69-83 -/

/-- Source `die(t, fmt, ...)`: prints a diagnostic (not modelled) and calls `exit(1)`. -/
def die {α : Type} (s : Proc) : Outcome α :=
  .exit 1 s

/-! ## `startup_server`, lines 85-109 -/

/-- Source `startup_server(s)` for the `i`-th listener `sv`; the result is the
listener with its `fd` assigned. -/
def startup_server (w : World) (i : Nat) (sv : Server) (s : Proc) : Outcome Server :=
  let p := sys_socket w 90 i s
  let fd := p.1
  let s := p.2
  if fd = -1 then die s
  else
    let p := sys_on_fd w 94 i (.setsockopt fd) fd s
    let s := p.2
    if p.1 = -1 then die s
    else
      let s := (sys_on_fd w 97 i (.fcntl fd .F_SETFD_CLOEXEC) fd s).2
      let s := (sys_on_fd w 98 i (.fcntl fd .F_SETFL_NONBLOCK) fd s).2
      let p := sys_on_fd w 103 i (.bind fd sv.addr sv.port) fd s
      let s := p.2
      if p.1 = -1 then die s
      else
        let p := sys_on_fd w 106 i (.listen fd 128) fd s
        let s := p.2
        if p.1 = -1 then die s
        else .ret { sv with fd := fd } s

/-! ## The signal handlers, lines 111-139 -/

/-- Source `sigterm`. -/
def sigterm (_sig : Signal) (s : Proc) : Proc :=
  { s with gotsigterm := 1 }

/-- Source `sighup`. -/
def sighup (_sig : Signal) (s : Proc) : Proc :=
  { s with gotsighup := 1 }

/-- Source `sigusr1`. -/
def sigusr1 (_sig : Signal) (s : Proc) : Proc :=
  { s with gotsigusr1 := 1 }

/-- Source `sigusr2`. -/
def sigusr2 (_sig : Signal) (s : Proc) : Proc :=
  { s with gotsigusr2 := 1 }

/-- Source `sigchld`. -/
def sigchld (_sig : Signal) (s : Proc) : Proc :=
  { s with gotsigchld := 1 }

/-- Source `sigquit`. -/
def sigquit (_sig : Signal) (s : Proc) : Proc :=
  { s with gotsigquit := 1 }

/-- The function a handler name stands for. -/
def SigHandler.run : SigHandler → Signal → Proc → Proc
  | .sigterm => Mathopd.sigterm
  | .sighup => Mathopd.sighup
  | .sigusr1 => Mathopd.sigusr1
  | .sigusr2 => Mathopd.sigusr2
  | .sigchld => Mathopd.sigchld
  | .sigquit => Mathopd.sigquit

/-- Delivery of one signal according to the installed disposition: a handler
runs, an ignored signal does nothing, and the default action terminates the
process (except for `SIGCHLD`, whose default is to be ignored). -/
def deliver (sig : Signal) (s : Proc) : Outcome Unit :=
  match s.sigdisp sig with
  | .handler h => .ret () (h.run sig s)
  | .SIG_IGN => .ret () s
  | .SIG_DFL => if sig = .SIGCHLD then .ret () s else .killed sig s

/-- Delivery of a sequence of signals, in order. -/
def deliver_all : List Signal → Proc → Outcome Unit
  | [], s => .ret () s
  | sig :: rest, s => (deliver sig s).bind (fun _ s1 => deliver_all rest s1)

/-! ## `main`, lines 141-280 -/

/-- One result of `getopt(argc, argv, "ndvf:")`. -/
inductive Opt
  | n
  | d
  | v
  | f (optarg : String)
  | other
  deriving DecidableEq, Repr

/-- The locals of `main` set by the option loop. -/
structure Options where
  am_daemon : Int
  version : Int
  config_filename : Option String
  deriving DecidableEq, Repr

/-- Lines 155-176: the option loop over the successive results of `getopt`. -/
def parse_options : List Opt → Options → Proc → Outcome Options
  | [], o, s => .ret o s
  | .n :: rest, o, s => parse_options rest { o with am_daemon := 0 } s
  | .d :: rest, o, s => parse_options rest o { s with debug := 1 }
  | .v :: rest, o, s => parse_options rest { o with version := 1 } s
  | .f optarg :: rest, o, s =>
    match o.config_filename with
    | none => parse_options rest { o with config_filename := some optarg } s
    | some _ => die s
  | .other :: _, _, s => die s

/-- The conversion of an `rlim_t` value to `int` in `n = rl.rlim_cur = rl.rlim_max`. -/
def int_of_rlim (v : Nat) : Int :=
  ((((v + 2 ^ 31) % 2 ^ 32 : Nat) : Int)) - 2 ^ 31

/-- Lines 185-186: `for (i = 3; i < n; i++) close(i);` with `k` iterations left. -/
def close_loop : Nat → Int → Proc → Proc
  | 0, _, s => s
  | k + 1, i, s => close_loop k (i + 1) (sys_close 186 i s).2

/-- Lines 190-191: `while (null_fd < 3) null_fd = dup(null_fd);`.  Once `dup`
has returned -1 every later `dup(-1)` returns -1 as well and the loop never
ends.  The first argument bounds the number of iterations unfolded. -/
def dup_loop (w : World) : Nat → Nat → Int → Proc → Outcome Int
  | 0, _, null_fd, s => if null_fd < 3 then .hang s else .ret null_fd s
  | fuel + 1, k, null_fd, s =>
    if null_fd < 3 then
      let p := sys_dup w 191 k null_fd s
      if p.1 = -1 then .hang p.2 else dup_loop w fuel (k + 1) p.1 p.2
    else .ret null_fd s

/-- Lines 195-199: `startup_server` on every listener, in order. -/
def startup_servers (w : World) : Nat → List Server → Proc → Outcome (List Server)
  | _, [], s => .ret [] s
  | i, sv :: rest, s =>
    (startup_server w i sv s).bind (fun sv1 s1 =>
      (startup_servers w (i + 1) rest s1).bind (fun l s2 => .ret (sv1 :: l) s2))

/-- Lines 185-191: closing of the inherited descriptors from 3 up to `n`, and
the null device.  The value is `null_fd`. -/
def main_devnull (w : World) (n : Int) (s : Proc) : Outcome Int :=
  let s := close_loop (n - 3).toNat 3 s
  let p := sys_open w 187 0 "/dev/null" [.O_RDWR] s
  let s := p.2
  if p.1 = -1 then die s
  else dup_loop w 4 0 p.1 s

/-- Lines 181-191: descriptor limit, closing of inherited descriptors, null
device.  The value is `null_fd`. -/
def main_fds (w : World) (s : Proc) : Outcome Int :=
  let p := sys_getrlimit w 181 .RLIMIT_NOFILE s
  let s := p.2
  if p.1 = -1 then die s
  else
    let rl : Rlimit := ⟨s.nofile.rlim_max, s.nofile.rlim_max⟩
    let n := int_of_rlim rl.rlim_max
    let s := (sys_setrlimit_nofile w 184 rl s).2
    main_devnull w n s

/-- Lines 192-199: configuration and listeners. -/
def main_config (w : World) (config_filename : Option String) (s : Proc) : Outcome Unit :=
  let c := w.config config_filename
  let s := record
    { s with servers := c.servers, rootdir := c.rootdir, user_name := c.user_name,
             coredir := c.coredir, pid_filename := c.pid_filename,
             stayroot := c.stayroot, fcm := c.fcm }
    192 (.config config_filename) (if c.message.isSome then 1 else 0)
  match c.message with
  | some _ => die s
  | none =>
    (startup_servers w 0 s.servers s).bind (fun l s1 => .ret () { s1 with servers := l })

/-- Lines 200-205: the file system jail. -/
def main_chroot (w : World) (s : Proc) : Outcome Unit :=
  match s.rootdir with
  | some rootdir =>
    let p := sys_chroot w 201 rootdir s
    let s := p.2
    if p.1 = -1 then die s
    else
      let p := sys_chdir w 203 "/" s
      let s := p.2
      if p.1 = -1 then die s else .ret () s
  | none => .ret () s

/-- Lines 208-223: the body of `if (geteuid() == 0)`. -/
def main_superuser (w : World) (s : Proc) : Outcome Unit :=
  match s.user_name with
  | none => die s
  | some user_name =>
    let q := sys_getpwnam w 210 user_name s
    let s := q.2
    match q.1 with
    | none => die s
    | some pwd =>
      if pwd.pw_uid = 0 then die s
      else
        let p := sys_initgroups w 213 user_name pwd.pw_gid s
        let s := p.2
        if p.1 = -1 then die s
        else
          let p := sys_setgid w 215 pwd.pw_gid s
          let s := p.2
          if p.1 = -1 then die s
          else if s.stayroot ≠ 0 then
            let p := sys_seteuid w 218 pwd.pw_uid s
            let s := p.2
            if p.1 = -1 then die s else .ret () s
          else
            let p := sys_setuid w 221 pwd.pw_uid s
            let s := p.2
            if p.1 = -1 then die s else .ret () s

/-- Lines 206-224: the change of identity. -/
def main_privdrop (w : World) (s : Proc) : Outcome Unit :=
  let p := sys_geteuid 206 s
  let s := (sys_setuid w 206 p.1 p.2).2
  let p := sys_geteuid 207 s
  let s := p.2
  if p.1 = 0 then main_superuser w s else .ret () s

/-- Lines 225-235: the core dump policy. -/
def main_core (w : World) (s : Proc) : Outcome Unit :=
  let p := sys_getrlimit w 225 .RLIMIT_CORE s
  let s := p.2
  if p.1 = -1 then die s
  else
    let rl := s.core
    match s.coredir with
    | some coredir =>
      let rl := { rl with rlim_cur := rl.rlim_max }
      let p := sys_chdir w 229 coredir s
      let s := p.2
      if p.1 = -1 then die s
      else .ret () (sys_setrlimit_core w 235 rl s).2
    | none =>
      let rl := { rl with rlim_cur := 0 }
      let s := (sys_chdir w 233 "/" s).2
      .ret () (sys_setrlimit_core w 235 rl s).2

/-- Lines 254-261: the signal dispositions `main` installs. -/
def main_signals (s : Proc) : Proc :=
  let s := (mysignal 254 .SIGCHLD (.handler .sigchld) s).2
  let s := (mysignal 255 .SIGHUP (.handler .sighup) s).2
  let s := (mysignal 256 .SIGTERM (.handler .sigterm) s).2
  let s := (mysignal 257 .SIGINT (.handler .sigterm) s).2
  let s := (mysignal 258 .SIGQUIT (.handler .sigquit) s).2
  let s := (mysignal 259 .SIGUSR1 (.handler .sigusr1) s).2
  let s := (mysignal 260 .SIGUSR2 (.handler .sigusr2) s).2
  let s := (mysignal 261 .SIGPIPE .SIG_IGN s).2
  s

/-- Lines 243-277: standard descriptors, daemonization, signal dispositions,
PID publication, initial flags. -/
def main_daemon (w : World) (am_daemon : Int) (null_fd pid_fd : Int) (s : Proc) : Outcome Unit :=
  let s := (sys_dup2 243 null_fd 0 s).2
  let s := (sys_dup2 244 null_fd 1 s).2
  let s := (sys_dup2 245 null_fd 2 s).2
  let s := (sys_close 246 null_fd s).2
  let o : Outcome Unit :=
    if am_daemon ≠ 0 then
      let p := sys_fork w 248 s
      if p.1 ≠ 0 then .exit 0 p.2
      else
        let s := (sys_other w 250 .setsid p.2).2
        let p := sys_fork w 251 s
        if p.1 ≠ 0 then .exit 0 p.2 else .ret () p.2
    else .ret () s
  o.bind (fun _ s =>
    let s := main_signals s
    let p := sys_getpid 262 s
    let s := { p.2 with my_pid := p.1 }
    let s :=
      if pid_fd ≠ -1 then
        let s := (sys_on_fd w 264 0 (.ftruncate pid_fd) pid_fd s).2
        let s := (sys_on_fd w 266 0 (.write pid_fd (toString s.my_pid ++ "\n")) pid_fd s).2
        (sys_close 267 pid_fd s).2
      else s
    let s := { s with gotsighup := 1 }
    let s := { s with gotsigterm := 0 }
    let s := { s with gotsigusr1 := 0 }
    let s := { s with gotsigusr2 := 0 }
    let s := { s with gotsigchld := 0 }
    let s := { s with gotsigquit := 0 }
    let s := (sys_other w 275 .time s).2
    let s := (sys_other w 276 .time s).2
    let s := (sys_other w 277 .base64init s).2
    .ret () s)

/-- Lines 236-242, continued by lines 243-277: file creation mask and PID file. -/
def main_pidfile (w : World) (am_daemon : Int) (null_fd : Int) (s : Proc) : Outcome Unit :=
  let s := (sys_umask 236 s.fcm s).2
  match s.pid_filename with
  | some pid_filename =>
    let p := sys_open w 238 0 pid_filename [.O_WRONLY, .O_CREAT] s
    if p.1 = -1 then die p.2 else main_daemon w am_daemon null_fd p.1 p.2
  | none => main_daemon w am_daemon null_fd (-1) s

/-- Lines 181-277: everything `main` does between the option loop and the
call of `httpd_main`. -/
def main_startup (w : World) (o : Options) (s : Proc) : Outcome Unit :=
  (main_fds w s).bind (fun null_fd s =>
    (main_config w o.config_filename s).bind (fun _ s =>
      (main_chroot w s).bind (fun _ s =>
        (main_privdrop w s).bind (fun _ s =>
          (main_core w s).bind (fun _ s =>
            main_pidfile w o.am_daemon null_fd s)))))

/-- Source `main(argc, argv)`, on the results `opts` of the successive
`getopt` calls.  Falling through with value `v` is `return v`. -/
def main (w : World) (opts : List Opt) (s : Proc) : Outcome Int :=
  (parse_options opts ⟨1, 0, none⟩ s).bind (fun o s =>
    if o.version ≠ 0 then .ret 0 s
    else
      (main_startup w o s).bind (fun _ s =>
        .ret 0 (w.httpd_main (record s 278 .httpd_main 0))))

/-! ## `fork_request`, lines 282-331 -/

/-- The fields of `struct request` that `fork_request` touches:
`r->cn->fd`, `r->c->child_filename`, `r->status_line`. -/
structure Request where
  fd : Int
  child_filename : Option String
  status_line : Option String
  deriving DecidableEq, Repr

/-- A request handler `int (*f)(struct request *)`, run on the process state. -/
abbrev Handler := Request → Proc → Int × Proc

/-- Lines 293-319: what the child does between `fork` returning 0 and the call
of the handler.  The result is the state on which the handler is invoked. -/
def fork_request_child (w : World) (r : Request) (s : Proc) : Proc :=
  let p := sys_getpid 293 s
  let s := { p.2 with my_pid := p.1 }
  let s := { s with forked := 1 }
  let s := (mysignal 295 .SIGPIPE .SIG_DFL s).2
  let fd := r.fd
  let child_filename := r.child_filename
  let p : Int × Proc :=
    match child_filename with
    | none => (fd, s)
    | some name =>
      let q := sys_open w 301 0 name [.O_WRONLY, .O_CREAT, .O_APPEND] s
      if q.1 = -1 then (fd, lerror 304 "open" (log_d 303 ("cannot open child log " ++ name) q.2))
      else q
  let efd := p.1
  let s := p.2
  let s := (sys_dup2 308 fd 0 s).2
  let s := (sys_dup2 309 fd 1 s).2
  let s := (sys_dup2 310 efd 2 s).2
  let s := (sys_on_fd w 311 0 (.fcntl 0 .F_SETFL_0) 0 s).2
  let s := (sys_on_fd w 312 0 (.fcntl 1 .F_SETFL_0) 1 s).2
  let s := if efd = fd then (sys_on_fd w 314 0 (.fcntl 2 .F_SETFL_0) 2 s).2 else s
  let s := (sys_close 316 fd s).2
  let s := if efd ≠ fd then (sys_close 318 efd s).2 else s
  s

/-- Source `fork_request(r, f)`.  The result pairs the returned `int` with the
request as the caller sees it afterwards.  In the child the handler is entered
(event at line 320) on the state `fork_request_child` produced and the process
exits with the handler's result. -/
def fork_request (w : World) (r : Request) (f : Handler) (s : Proc) : Outcome (Int × Request) :=
  if s.forked ≠ 0 then .exit 1 s
  else
    let p := sys_fork w 290 s
    let pid := p.1
    let s := p.2
    if pid = 0 then
      let q := f r (record (fork_request_child w r s) 320 .handler 0)
      .exit q.1 q.2
    else if pid = -1 then
      .ret (503, r) (lerror 324 "fork" s)
    else
      .ret (-1, { r with status_line := some "---" })
        (log_d 327 ("child process " ++ toString pid ++ " created") s)

/-! ## The claims' vocabulary -/

/-- The six signal flags. -/
inductive Flag
  | gotsigterm | gotsighup | gotsigusr1 | gotsigusr2 | gotsigchld | gotsigquit
  deriving DecidableEq, Repr

/-- The value of a flag in a process state. -/
def Proc.flag (s : Proc) : Flag → Int
  | .gotsigterm => s.gotsigterm
  | .gotsighup => s.gotsighup
  | .gotsigusr1 => s.gotsigusr1
  | .gotsigusr2 => s.gotsigusr2
  | .gotsigchld => s.gotsigchld
  | .gotsigquit => s.gotsigquit

/-- The binding of signals to flags as the specification states it:
`SIGTERM` and `SIGINT` to `gotsigterm`, `SIGHUP` to `gotsighup`, `SIGCHLD` to
`gotsigchld`, `SIGQUIT` to `gotsigquit`, `SIGUSR1` and `SIGUSR2` to their own
flags; `SIGPIPE` is bound to no flag. -/
def flag_of_signal : Signal → Option Flag
  | .SIGTERM => some .gotsigterm
  | .SIGINT => some .gotsigterm
  | .SIGHUP => some .gotsighup
  | .SIGCHLD => some .gotsigchld
  | .SIGQUIT => some .gotsigquit
  | .SIGUSR1 => some .gotsigusr1
  | .SIGUSR2 => some .gotsigusr2
  | .SIGPIPE => none

/-- The flag a handler is named after. -/
def SigHandler.flag : SigHandler → Flag
  | .sigterm => .gotsigterm
  | .sighup => .gotsighup
  | .sigusr1 => .gotsigusr1
  | .sigusr2 => .gotsigusr2
  | .sigchld => .gotsigchld
  | .sigquit => .gotsigquit

/-! ## Example states -/

/-- A freshly started process: invoked by the superuser from a shell, standard
descriptors on a terminal, one stray inherited descriptor. -/
def bootProc : Proc where
  fds := fun i => if 0 ≤ i ∧ i < 3 then some (.path "/dev/tty") else if i = 5 then some (.path "stray") else none
  nofile := ⟨8, 16⟩
  core := ⟨5, 1000⟩
  ids := ⟨0, 0, 0, 0, 0, 0, [0]⟩
  root := "/"
  cwd := "/home/admin"
  umask := 18
  sigdisp := fun _ => .SIG_DFL
  pid := 100
  gotsigterm := 0
  gotsighup := 0
  gotsigusr1 := 0
  gotsigusr2 := 0
  gotsigchld := 0
  gotsigquit := 0
  debug := 0
  fcm := 0
  stayroot := 0
  my_pid := 0
  forked := 0
  servers := []
  rootdir := none
  user_name := none
  coredir := none
  pid_filename := none
  trace := []

/-- A configuration with one listener and the account `www`. -/
def exampleConfig : ConfigResult where
  message := none
  servers := [⟨0, 8080, none, -1⟩]
  rootdir := none
  user_name := some "www"
  coredir := none
  pid_filename := some "/var/run/mathopd.pid"
  stayroot := 0
  fcm := 18

/-- A world in which no call fails for an external reason, only an effective
user id of 0 gives privileges, the account `www` has user id 33 and group id
33, `fork` returns `pid` at every call site, and `httpd_main` returns at once. -/
def exampleWorld (pid : Int) : World where
  ok := fun _ _ => true
  cap_setuid := false
  bsd_setuid := false
  passwd := fun name => if name = "www" then some ⟨33, 33⟩ else none
  grouplist := fun _ => []
  fork_ret := fun _ => pid
  child_pid := fun _ => 101
  config := fun _ => exampleConfig
  httpd_main := fun s => s

/-- A handler that returns 0 and leaves the state alone. -/
def exampleHandler : Handler :=
  fun _ s => (0, s)

/-- The server process while serving: unprivileged, descriptors 0-2 on the
null device, a listener on 4 and an accepted connection on 5. -/
def servingProc : Proc where
  fds := fun i =>
    if 0 ≤ i ∧ i < 3 then some (.path "/dev/null")
    else if i = 4 then some (.socket 0)
    else if i = 5 then some (.socket 9)
    else none
  nofile := ⟨16, 16⟩
  core := ⟨0, 1000⟩
  ids := ⟨33, 33, 33, 33, 33, 33, [33]⟩
  root := "/"
  cwd := "/"
  umask := 18
  sigdisp := (main_signals bootProc).sigdisp
  pid := 101
  gotsigterm := 0
  gotsighup := 0
  gotsigusr1 := 0
  gotsigusr2 := 0
  gotsigchld := 0
  gotsigquit := 0
  debug := 0
  fcm := 18
  stayroot := 0
  my_pid := 101
  forked := 0
  servers := [⟨0, 8080, none, 4⟩]
  rootdir := none
  user_name := some "www"
  coredir := none
  pid_filename := none
  trace := []

/-- A process whose descriptor 0 is the accepted connection. -/
def stdinConnProc : Proc :=
  { servingProc with
    fds := fun i => if i = 0 then some (.socket 9) else if i = 1 ∨ i = 2 then some (.path "/dev/null") else none }

/-! ## Vocabulary of the trace properties -/

/-- A call to `chroot`. -/
def Call.isChroot : Call → Bool
  | .chroot _ => true
  | _ => false

/-- A call to `chdir`. -/
def Call.isChdir : Call → Bool
  | .chdir _ => true
  | _ => false

/-- A call that changes the identity of the process: `setuid`, `seteuid`,
`setgid`, `initgroups`. -/
def Call.changesIdentity : Call → Bool
  | .setuid _ => true
  | .seteuid _ => true
  | .setgid _ => true
  | .initgroups _ _ => true
  | _ => false

/-- The call reported failure: a null pointer for `getpwnam`, -1 otherwise. -/
def Event.failed (e : Event) : Prop :=
  match e.call with
  | .getpwnam _ => e.rv = 0
  | _ => e.rv = -1

/-- The source lines of the calls, up to line 235, whose failure `main` and
`startup_server` test for and answer with `die`. -/
def checkedLines : List Nat :=
  [181, 187, 90, 94, 103, 106, 201, 203, 210, 213, 215, 218, 221, 225, 229]

/-- No checked call in `l` failed. -/
def Clean (l : List Event) : Prop :=
  ∀ e ∈ l, e.line ∈ checkedLines → ¬ e.failed

/-- The run ended in `exit(1)`, or else none of its checked calls failed. -/
def Good {α : Type} (o : Outcome α) (l : List Event) : Prop :=
  (∃ s1, o = .exit 1 s1) ∨ Clean l

/-- An event of the preparation phase (lines 181-199): neither `chroot`, nor
`chdir`, nor a change of identity, nor the entry into `httpd_main`. -/
def EvPrep (e : Event) : Prop :=
  e.line < 200 ∧ e.call.isChroot = false ∧ e.call.isChdir = false ∧
    e.call.changesIdentity = false ∧ e.call ≠ .httpd_main

/-- An event of the jail phase (lines 200-205). -/
def EvJail (e : Event) : Prop :=
  (e.line = 201 ∨ e.line = 203) ∧ e.call.changesIdentity = false ∧ e.call ≠ .httpd_main

/-- An event of the identity phase (lines 206-224). -/
def EvIdent (e : Event) : Prop :=
  206 ≤ e.line ∧ e.line ≤ 221 ∧ e.call.isChroot = false ∧ e.call ≠ .httpd_main ∧
    (∀ u, e.call = .setuid u ∨ e.call = .seteuid u → e.line = 206 ∨ e.line = 218 ∨ e.line = 221)

/-- An event of the later phases (lines 225-277). -/
def EvLate (e : Event) : Prop :=
  225 ≤ e.line ∧ e.call.isChroot = false ∧ e.call.changesIdentity = false ∧ e.call ≠ .httpd_main

/-- The event is the call that sets the user id to the target account. -/
def Event.isTarget (e : Event) : Prop :=
  e.line = 218 ∨ e.line = 221

/-- The calls before the target call `e`: `initgroups` succeeded, then `setgid`
succeeded, both for the account `e` switches to. -/
def GroupsFirst (w : World) (pre : List Event) (e : Event) : Prop :=
  ∃ name pw rv a b c, w.passwd name = some pw ∧
    (e = ⟨218, .seteuid pw.pw_uid, rv⟩ ∨ e = ⟨221, .setuid pw.pw_uid, rv⟩) ∧
    pre = a ++ ⟨213, .initgroups name pw.pw_gid, 0⟩ :: (b ++ ⟨215, .setgid pw.pw_gid, 0⟩ :: c)

/-- Every event of `l` satisfying `T` stands after a prefix related to it by `R`. -/
def Guarded (T : Event → Prop) (R : List Event → Event → Prop) (l : List Event) : Prop :=
  ∀ pre e post, l = pre ++ e :: post → T e → R pre e

/-- The events of lines 206-277: those of the identity phase, with every
target call preceded by `initgroups` and `setgid`, then those of the later phases. -/
def ShapeIdent (w : World) (l : List Event) : Prop :=
  ∃ lC lD, l = lC ++ lD ∧ (∀ e ∈ lC, EvIdent e) ∧ Guarded Event.isTarget (GroupsFirst w) lC ∧
    (∀ e ∈ lD, EvLate e)

/-- The events of lines 200-277: those of the jail phase, where only the first
can be a `chroot`, then those of lines 206-277. -/
def ShapeJail (w : World) (l : List Event) : Prop :=
  ∃ lB lR, l = lB ++ lR ∧ (∀ e ∈ lB, EvJail e) ∧ (∀ x ∈ lB.tail, x.call.isChroot = false) ∧
    ShapeIdent w lR

/-- The events of lines 181-277: those of the preparation phase, then those of
lines 200-277. -/
def ShapeMain (w : World) (l : List Event) : Prop :=
  ∃ lA lR, l = lA ++ lR ∧ (∀ e ∈ lA, EvPrep e) ∧ ShapeJail w lR

/-- No `chdir` and no change of identity among the events `pre`. -/
def NoneBefore (pre : List Event) (_e : Event) : Prop :=
  ∀ x ∈ pre, x.call.isChdir = false ∧ x.call.changesIdentity = false

/-- The number of free descriptors among 0, 1, 2. -/
def free3 (t : Fds) : Nat :=
  (if t 0 = none then 1 else 0) + (if t 1 = none then 1 else 0) + (if t 2 = none then 1 else 0)

/-! ## Further example states and worlds -/

/-- A world like `exampleWorld` in which exactly the calls at the source lines
listed in `failing` fail. -/
def failingWorld (failing : List Nat) : World :=
  { exampleWorld 0 with ok := fun line _ => !(failing.contains line) }

/-- A world like `exampleWorld` whose configuration also names a jail root. -/
def jailWorld : World :=
  { exampleWorld 0 with config := fun _ => { exampleConfig with rootdir := some "/var/www" } }

/-- The state `bootProc` of a process started by user 1000 from a set-user-id
root binary: real user id 1000, effective and saved user id 0. -/
def setuidRootProc : Proc :=
  { bootProc with ids := ⟨1000, 0, 0, 1000, 1000, 1000, [1000]⟩ }

/-- A world like `exampleWorld` in which the process holds the capability to
set user ids whatever its user id is. -/
def capWorld : World :=
  { exampleWorld 0 with cap_setuid := true }

/-- A world like `exampleWorld` whose `setuid` follows the BSD rule. -/
def bsdWorld : World :=
  { exampleWorld 0 with bsd_setuid := true }

/-- The state `bootProc` of a process started by user 1000 from a binary that
is set-user-id to the unprivileged account 33: real user id 1000, effective and
saved user id 33. -/
def setuidWwwProc : Proc :=
  { bootProc with ids := ⟨1000, 33, 33, 1000, 1000, 1000, [1000]⟩ }

/-- The calls issued by the run of `main_startup` in `jailWorld` from `bootProc`. -/
def jailTrace : List Event :=
  (main_startup jailWorld ⟨0, 0, none⟩ bootProc).state.trace

/-- The superuser's freshly started process with the account `www` configured. -/
def rootProc : Proc :=
  { bootProc with user_name := some "www" }

/-- A serving process whose descriptor 0 is closed: the connection is on 5. -/
def stdinFreeProc : Proc :=
  { servingProc with
    fds := fun i =>
      if i = 1 ∨ i = 2 then some (.path "/dev/null")
      else if i = 4 then some (.socket 0)
      else if i = 5 then some (.socket 9)
      else none }

/-! ## Forked requests: descriptor lemmas -/

theorem lowestFree_free (limit : Nat) (t : Fds) (n : Nat) (h : lowestFree limit t = some n) :
    t (n : Int) = none := by
  unfold lowestFree at h
  have := List.find?_some h
  simpa using this

theorem fork_child_fds (w : World) (r : Request) (s : Proc) (conn : File)
    (hfd : 3 ≤ r.fd) (hconn : s.fds r.fd = some conn)
    (hstd : ∀ i : Int, 0 ≤ i → i < 3 → s.fds i ≠ none) :
    (fork_request_child w r s).fds 0 = some conn ∧
    (fork_request_child w r s).fds 1 = some conn ∧
    (fork_request_child w r s).fds r.fd = none ∧
    (r.child_filename = none → (fork_request_child w r s).fds 2 = some conn) ∧
    (∀ name, r.child_filename = some name →
      ((w.ok 301 0 = false ∨ lowestFree s.nofile.rlim_cur s.fds = none) →
        (fork_request_child w r s).fds 2 = some conn) ∧
      (∀ n, w.ok 301 0 = true → lowestFree s.nofile.rlim_cur s.fds = some n →
        (fork_request_child w r s).fds 2 = some (.path name) ∧
        (fork_request_child w r s).fds (n : Int) = none)) := by
  have h0 : ¬ r.fd < 0 := by omega
  have h1 : r.fd ≠ 0 := by omega
  have h2 : r.fd ≠ 1 := by omega
  have h3 : r.fd ≠ 2 := by omega
  cases hcf : r.child_filename with
  | none =>
    simp [fork_request_child, hcf, sys_getpid, mysignal, record, sys_dup2, k_dup2, lookup,
      h0, hconn, sys_on_fd, sys_close, k_close, setfd, h1, h2, h3, Ne.symm h1, Ne.symm h2, Ne.symm h3]
  | some name =>
    cases hok : w.ok 301 0 with
    | false =>
      simp [fork_request_child, hcf, sys_getpid, mysignal, record, sys_dup2, k_dup2, lookup,
        h0, hconn, sys_on_fd, sys_close, k_close, setfd, h1, h2, h3, Ne.symm h1, Ne.symm h2, Ne.symm h3,
        sys_open, alloc, hok, log_d, lerror]
    | true =>
      cases hlf : lowestFree s.nofile.rlim_cur s.fds with
      | none =>
        simp [fork_request_child, hcf, sys_getpid, mysignal, record, sys_dup2, k_dup2, lookup,
          h0, hconn, sys_on_fd, sys_close, k_close, setfd, h1, h2, h3, Ne.symm h1, Ne.symm h2, Ne.symm h3,
          sys_open, alloc, hok, log_d, lerror, hlf]
      | some n =>
        have hn := lowestFree_free _ _ n hlf
        have hn3 : (3 : Int) ≤ n := by
          by_contra hc
          exact hstd n (by omega) (by omega) hn
        have hnfd : (n : Int) ≠ r.fd := by
          intro h; rw [h] at hn; rw [hn] at hconn; cases hconn
        have e0 : ¬ (n : Int) < 0 := by omega
        have e1 : (n : Int) ≠ 0 := by omega
        have e2 : (n : Int) ≠ 1 := by omega
        have e3 : (n : Int) ≠ 2 := by omega
        have e4 : (n : Int) ≠ -1 := by omega
        simp [fork_request_child, hcf, sys_getpid, mysignal, record, sys_dup2, k_dup2, lookup,
          h0, hconn, sys_on_fd, sys_close, k_close, setfd, h1, h2, h3, Ne.symm h1, Ne.symm h2, Ne.symm h3,
          sys_open, alloc, hok, log_d, lerror, hlf, e0, e1, e2, e3, e4, hnfd, Ne.symm hnfd,
          Ne.symm e1, Ne.symm e2, Ne.symm e3]

/-- The child sets the guard before anything else and nothing clears it. -/
theorem fork_child_forked (w : World) (r : Request) (s : Proc) :
    (fork_request_child w r s).forked = 1 := by
  unfold fork_request_child
  cases r.child_filename <;>
    simp only [sys_getpid, mysignal, record, sys_dup2, sys_on_fd, sys_close, sys_open, log_d, lerror] <;>
    split_ifs <;> rfl

/-! ## Signal flags -/

/-- The dispositions installed by lines 254-261, whatever was there before. -/
theorem main_signals_sigdisp (s0 : Proc) (g : Signal) :
    (main_signals s0).sigdisp g =
      match g with
      | .SIGCHLD => .handler .sigchld
      | .SIGHUP => .handler .sighup
      | .SIGTERM => .handler .sigterm
      | .SIGINT => .handler .sigterm
      | .SIGQUIT => .handler .sigquit
      | .SIGUSR1 => .handler .sigusr1
      | .SIGUSR2 => .handler .sigusr2
      | .SIGPIPE => .SIG_IGN := by
  cases g <;> simp [main_signals, mysignal, record]

/-- A handler sets the flag it is named after and no other. -/
theorem run_flag (h : SigHandler) (g : Signal) (s : Proc) (fl : Flag) :
    (h.run g s).flag fl = if fl = h.flag then 1 else s.flag fl := by
  cases h <;> cases fl <;> rfl

/-- Under the dispositions of `main`, one delivery falls through, keeps the
dispositions, and sets exactly the flag bound to the signal. -/
theorem deliver_installed (s0 s : Proc) (g : Signal)
    (hd : s.sigdisp = (main_signals s0).sigdisp) :
    ∃ s1, deliver g s = .ret () s1 ∧ s1.sigdisp = s.sigdisp ∧
      ∀ fl, s1.flag fl = if flag_of_signal g = some fl then 1 else s.flag fl := by
  have hg := main_signals_sigdisp s0 g
  rw [← hd] at hg
  cases g <;> simp only [deliver, hg] <;>
    refine ⟨_, rfl, ?_, ?_⟩ <;> first | rfl | (intro fl; cases fl <;> rfl)

theorem deliver_all_installed (s0 : Proc) (l : List Signal) :
    ∀ s : Proc, s.sigdisp = (main_signals s0).sigdisp →
    ∃ s1, deliver_all l s = .ret () s1 ∧ s1.sigdisp = s.sigdisp ∧
      ∀ fl, s1.flag fl = if (∃ g ∈ l, flag_of_signal g = some fl) then 1 else s.flag fl := by
  induction l with
  | nil =>
    intro s _
    exact ⟨s, rfl, rfl, by simp⟩
  | cons g rest ih =>
    intro s hd
    obtain ⟨s1, h1, hd1, hf1⟩ := deliver_installed s0 s g hd
    obtain ⟨s2, h2, hd2, hf2⟩ := ih s1 (by rw [hd1, hd])
    refine ⟨s2, ?_, by rw [hd2, hd1], ?_⟩
    · simp [deliver_all, h1, Outcome.bind, h2]
    · intro fl
      rw [hf2, hf1]
      by_cases hg : flag_of_signal g = some fl
      · simp [hg]
      · by_cases hr : ∃ x ∈ rest, flag_of_signal x = some fl
        · simp [hr]
        · have : ¬ ∃ x ∈ g :: rest, flag_of_signal x = some fl := by
            simp only [List.mem_cons, not_exists, not_and]
            rintro x (rfl | hx) hfx
            · exact hg hfx
            · exact hr ⟨x, hx, hfx⟩
          simp [hg, hr, this]

/-! ## Traces: generic lemmas -/

theorem Guarded_of_none {T : Event → Prop} {R : List Event → Event → Prop} {l : List Event}
    (h : ∀ x ∈ l, ¬ T x) : Guarded T R l := by
  intro pre e post hl hT
  exact absurd hT (h e (by rw [hl]; simp))

theorem Guarded_append_right {T : Event → Prop} {R : List Event → Event → Prop} {A B : List Event}
    (hA : Guarded T R A) (hB : ∀ x ∈ B, ¬ T x) : Guarded T R (A ++ B) := by
  intro pre e post hl hT
  rcases List.append_eq_append_iff.1 hl with ⟨a1, h1, h2⟩ | ⟨c1, h1, h2⟩
  · exact absurd hT (hB e (by rw [h2]; simp))
  · cases c1 with
    | nil =>
      simp at h2
      exact absurd hT (hB e (by rw [← h2]; simp))
    | cons x c2 =>
      simp at h2
      obtain ⟨hx, _⟩ := h2
      subst hx
      exact hA pre e c2 h1 hT

theorem Guarded_append_left {T : Event → Prop} {R : List Event → Event → Prop} {A B : List Event}
    (hA : ∀ x ∈ A, ¬ T x) (hB : Guarded T R B)
    (hR : ∀ pre e, R pre e → R (A ++ pre) e) : Guarded T R (A ++ B) := by
  intro pre e post hl hT
  rcases List.append_eq_append_iff.1 hl with ⟨a1, h1, h2⟩ | ⟨c1, h1, h2⟩
  · rw [h1]
    exact hR a1 e (hB a1 e post h2 hT)
  · cases c1 with
    | nil =>
      simp at h2 h1
      subst h1
      have := hB [] e post (by simpa using h2.symm) hT
      simpa using hR [] e this
    | cons x c2 =>
      simp at h2
      obtain ⟨hx, _⟩ := h2
      subst hx
      exact absurd hT (hA e (by rw [h1]; simp))

theorem Guarded_snoc {T : Event → Prop} {R : List Event → Event → Prop} {A : List Event} {t : Event}
    (hA : ∀ x ∈ A, ¬ T x) (hR : R A t) : Guarded T R (A ++ [t]) := by
  intro pre e post hl hT
  rcases List.append_eq_append_iff.1 hl with ⟨a1, h1, h2⟩ | ⟨c1, h1, h2⟩
  · cases a1 with
    | nil =>
      simp at h2 h1
      obtain ⟨hx, _⟩ := h2
      subst hx; subst h1
      exact hR
    | cons x a2 =>
      simp at h2
  · cases c1 with
    | nil =>
      simp at h2 h1
      obtain ⟨hx, _⟩ := h2
      subst hx; subst h1
      exact hR
    | cons x c2 =>
      simp at h2
      obtain ⟨hx, _⟩ := h2
      subst hx
      exact absurd hT (hA e (by rw [h1]; simp))

theorem Guarded_cons {T : Event → Prop} {R : List Event → Event → Prop} {c : Event} {t : List Event}
    (hc : R [] c) (ht : ∀ x ∈ t, ¬ T x) : Guarded T R (c :: t) := by
  intro pre e post hl hT
  cases pre with
  | nil =>
    simp at hl
    obtain ⟨hx, _⟩ := hl
    subst hx
    exact hc
  | cons x p2 =>
    simp at hl
    obtain ⟨_, h3⟩ := hl
    exact absurd hT (ht e (by rw [h3]; simp))

theorem Clean_append {l1 l2 : List Event} (h1 : Clean l1) (h2 : Clean l2) : Clean (l1 ++ l2) := by
  intro e he
  rcases List.mem_append.1 he with h | h
  · exact h1 e h
  · exact h2 e h

theorem Clean_nil : Clean [] := by
  intro e he; cases he

theorem Clean_of_lines {l : List Event} (h : ∀ e ∈ l, e.line ∉ checkedLines) : Clean l := by
  intro e he hc
  exact absurd hc (h e he)

/-- Sequencing two pieces of code: the events of the whole are those of the
first piece followed by those of the second (none when the first does not fall
through). -/
theorem bind_spec {α β : Type} {Q : List Event → Prop} (m : Outcome α) (k : α → Proc → Outcome β)
    (s : Proc) (l1 : List Event)
    (h1 : m.state.trace = s.trace ++ l1) (g1 : Good m l1)
    (hk : ∀ a s1, m = .ret a s1 →
      ∃ l2, (k a s1).state.trace = s1.trace ++ l2 ∧ Q l2 ∧ Good (k a s1) l2)
    (hQ : Q []) :
    ∃ l2, (m.bind k).state.trace = s.trace ++ (l1 ++ l2) ∧ Q l2 ∧ Good (m.bind k) (l1 ++ l2) := by
  cases m with
  | ret a s1 =>
    obtain ⟨l2, h2, q2, g2⟩ := hk a s1 rfl
    refine ⟨l2, ?_, q2, ?_⟩
    · simp only [Outcome.bind]
      rw [h2]
      simp only [Outcome.state] at h1
      rw [h1, List.append_assoc]
    · simp only [Outcome.bind]
      rcases g2 with ⟨s2, h⟩ | h
      · exact Or.inl ⟨s2, h⟩
      · rcases g1 with ⟨s2, h0⟩ | h0
        · cases h0
        · exact Or.inr (Clean_append h0 h)
  | exit c s1 =>
    refine ⟨[], by simpa [Outcome.bind, Outcome.state] using h1, hQ, ?_⟩
    rcases g1 with ⟨s2, h0⟩ | h0
    · injection h0 with hc hs
      subst hc
      exact Or.inl ⟨s1, rfl⟩
    · exact Or.inr (by simpa using h0)
  | hang s1 =>
    refine ⟨[], by simpa [Outcome.bind, Outcome.state] using h1, hQ, ?_⟩
    rcases g1 with ⟨s2, h0⟩ | h0
    · cases h0
    · exact Or.inr (by simpa using h0)
  | killed g s1 =>
    refine ⟨[], by simpa [Outcome.bind, Outcome.state] using h1, hQ, ?_⟩
    rcases g1 with ⟨s2, h0⟩ | h0
    · cases h0
    · exact Or.inr (by simpa using h0)

/-! ## Traces of the phases of `main` -/

theorem main_chroot_spec (w : World) (s : Proc) :
    ∃ l, (main_chroot w s).state.trace = s.trace ++ l ∧ (∀ e ∈ l, EvJail e) ∧
      Good (main_chroot w s) l ∧ (∀ x ∈ l.tail, x.call.isChroot = false) := by
  unfold main_chroot
  cases s.rootdir with
  | none => exact ⟨[], by simp [Outcome.state], by simp, Or.inr Clean_nil, by simp⟩
  | some d =>
    simp only []
    split
    · simp [Outcome.state, die, sys_chdir, sys_chroot, record, EvJail, Good, Clean,
        Call.changesIdentity, Call.isChroot, checkedLines, Event.failed]
    · rename_i h201
      split
      · simp [Outcome.state, die, sys_chdir, sys_chroot, record, EvJail, Good, Clean,
          Call.changesIdentity, Call.isChroot, checkedLines, Event.failed]
      · rename_i h203
        simp [Outcome.state, die, sys_chdir, sys_chroot, record, EvJail, Good, Clean,
          Call.changesIdentity, Call.isChroot, checkedLines, Event.failed] at h201 h203 ⊢
        simp [h201, h203]

theorem close_loop_spec (k : Nat) : ∀ (i : Int) (s : Proc),
    ∃ l, (close_loop k i s).trace = s.trace ++ l ∧ (∀ e ∈ l, EvPrep e ∧ e.line = 186) := by
  induction k with
  | zero => intro i s; exact ⟨[], by simp [close_loop], by simp⟩
  | succ k ih =>
    intro i s
    obtain ⟨l, hl, hp⟩ := ih (i + 1) (sys_close 186 i s).2
    refine ⟨⟨186, .close i, (sys_close 186 i s).1⟩ :: l, ?_, ?_⟩
    · simp only [close_loop]
      rw [hl]
      simp [sys_close, record]
    · intro e he
      rcases List.mem_cons.1 he with rfl | h
      · simp [EvPrep, Call.isChroot, Call.isChdir, Call.changesIdentity]
      · exact hp e h

theorem dup_loop_spec (w : World) (fuel : Nat) : ∀ (k : Nat) (fd : Int) (s : Proc),
    ∃ l, (dup_loop w fuel k fd s).state.trace = s.trace ++ l ∧
      (∀ e ∈ l, EvPrep e ∧ e.line = 191) ∧ (∀ c s1, dup_loop w fuel k fd s ≠ .exit c s1) := by
  induction fuel with
  | zero =>
    intro k fd s
    refine ⟨[], ?_, by simp, ?_⟩
    · simp only [dup_loop]; split <;> simp [Outcome.state]
    · intro c s1; simp only [dup_loop]; split <;> simp
  | succ fuel ih =>
    intro k fd s
    simp only [dup_loop]
    split
    · split
      · refine ⟨[⟨191, .dup fd, (sys_dup w 191 k fd s).1⟩], ?_, ?_, ?_⟩
        · simp [Outcome.state, sys_dup, record]
        · simp [EvPrep, Call.isChroot, Call.isChdir, Call.changesIdentity]
        · simp
      · obtain ⟨l, hl, hp, hx⟩ := ih (k + 1) (sys_dup w 191 k fd s).1 (sys_dup w 191 k fd s).2
        refine ⟨⟨191, .dup fd, (sys_dup w 191 k fd s).1⟩ :: l, ?_, ?_, hx⟩
        · rw [hl]; simp [sys_dup, record]
        · intro e he
          rcases List.mem_cons.1 he with rfl | h
          · simp [EvPrep, Call.isChroot, Call.isChdir, Call.changesIdentity]
          · exact hp e h
    · exact ⟨[], by simp [Outcome.state], by simp, by simp⟩

theorem evPrep_mk (line : Nat) (c : Call) (rv : Int) (hl : line < 200)
    (h1 : c.isChroot = false) (h2 : c.isChdir = false) (h3 : c.changesIdentity = false)
    (h4 : c ≠ .httpd_main) : EvPrep ⟨line, c, rv⟩ :=
  ⟨hl, h1, h2, h3, h4⟩

theorem main_devnull_spec (w : World) (n : Int) (s : Proc) :
    ∃ l, (main_devnull w n s).state.trace = s.trace ++ l ∧ (∀ e ∈ l, EvPrep e) ∧
      Good (main_devnull w n s) l := by
  unfold main_devnull
  simp only []
  generalize (n - 3).toNat = cnt
  obtain ⟨lc, hlc, hpc⟩ := close_loop_spec cnt 3 s
  generalize (close_loop cnt 3 s) = s3 at hlc ⊢
  split
  · refine ⟨lc ++ [⟨187, .open_ "/dev/null" [.O_RDWR], (sys_open w 187 0 "/dev/null" [.O_RDWR] s3).1⟩],
      ?_, ?_, Or.inl ⟨_, rfl⟩⟩
    · simp only [die, Outcome.state, sys_open, record]
      rw [hlc, List.append_assoc]
    · intro e he
      rcases List.mem_append.1 he with h | h
      · exact (hpc e h).1
      · simp only [List.mem_singleton] at h; subst h
        exact evPrep_mk _ _ _ (by decide) rfl rfl rfl (by simp)
  · rename_i h187
    obtain ⟨ld, hld, hpd, hxd⟩ := dup_loop_spec w 4 0 (sys_open w 187 0 "/dev/null" [.O_RDWR] s3).1
      (sys_open w 187 0 "/dev/null" [.O_RDWR] s3).2
    refine ⟨lc ++ ([⟨187, .open_ "/dev/null" [.O_RDWR], (sys_open w 187 0 "/dev/null" [.O_RDWR] s3).1⟩] ++ ld),
      ?_, ?_, Or.inr ?_⟩
    · rw [hld]
      simp only [sys_open, record]
      rw [hlc, List.append_assoc, List.append_assoc]
    · intro e he
      rcases List.mem_append.1 he with h | h
      · exact (hpc e h).1
      · rcases List.mem_append.1 h with h | h
        · simp only [List.mem_singleton] at h; subst h
          exact evPrep_mk _ _ _ (by decide) rfl rfl rfl (by simp)
        · exact (hpd e h).1
    · intro e he
      rcases List.mem_append.1 he with h | h
      · intro hc
        rw [(hpc e h).2] at hc
        exact absurd hc (by decide)
      · rcases List.mem_append.1 h with h | h
        · simp only [List.mem_singleton] at h; subst h
          intro _; simpa [Event.failed] using h187
        · intro hc
          rw [(hpd e h).2] at hc
          exact absurd hc (by decide)

theorem main_fds_spec (w : World) (s : Proc) :
    ∃ l, (main_fds w s).state.trace = s.trace ++ l ∧ (∀ e ∈ l, EvPrep e) ∧ Good (main_fds w s) l := by
  unfold main_fds
  simp only []
  generalize (int_of_rlim _) = n
  split
  · simp [Outcome.state, die, sys_getrlimit, record, EvPrep, Good,
      Call.changesIdentity, Call.isChroot, Call.isChdir]
  · rename_i h181
    obtain ⟨l, hl, hp, hg⟩ := main_devnull_spec w n
      (sys_setrlimit_nofile w 184 ⟨(sys_getrlimit w 181 .RLIMIT_NOFILE s).2.nofile.rlim_max,
        (sys_getrlimit w 181 .RLIMIT_NOFILE s).2.nofile.rlim_max⟩
        (sys_getrlimit w 181 .RLIMIT_NOFILE s).2).2
    generalize (main_devnull w n _) = o at hl hg ⊢
    refine ⟨[⟨181, .getrlimit .RLIMIT_NOFILE, (sys_getrlimit w 181 .RLIMIT_NOFILE s).1⟩,
        ⟨184, .setrlimit .RLIMIT_NOFILE s.nofile.rlim_max s.nofile.rlim_max,
          (k_setrlimit (w.ok 184 0) s.ids.euid ⟨s.nofile.rlim_max, s.nofile.rlim_max⟩ s.nofile).1⟩] ++ l,
        ?_, ?_, ?_⟩
    · rw [hl]; simp [sys_getrlimit, sys_setrlimit_nofile, record]
    · intro e he
      simp only [List.mem_append, List.mem_cons, List.mem_singleton, List.not_mem_nil, or_false] at he
      rcases he with (rfl | rfl) | h
      · exact evPrep_mk _ _ _ (by decide) rfl rfl rfl (by simp)
      · exact evPrep_mk _ _ _ (by decide) rfl rfl rfl (by simp)
      · exact hp e h
    · rcases hg with hg | hg
      · exact Or.inl hg
      · refine Or.inr (Clean_append ?_ hg)
        intro e he
        simp only [List.mem_cons, List.mem_singleton, List.not_mem_nil, or_false] at he
        rcases he with rfl | rfl
        · intro _; simpa [Event.failed] using h181
        · intro hc; simp [checkedLines] at hc

theorem bind_spec_all {α β : Type} {P : Event → Prop} (m : Outcome α) (k : α → Proc → Outcome β)
    (s : Proc)
    (hm : ∃ l1, m.state.trace = s.trace ++ l1 ∧ (∀ e ∈ l1, P e) ∧ Good m l1)
    (hk : ∀ a s1, m = .ret a s1 →
      ∃ l2, (k a s1).state.trace = s1.trace ++ l2 ∧ (∀ e ∈ l2, P e) ∧ Good (k a s1) l2) :
    ∃ l, (m.bind k).state.trace = s.trace ++ l ∧ (∀ e ∈ l, P e) ∧ Good (m.bind k) l := by
  obtain ⟨l1, h1, p1, g1⟩ := hm
  obtain ⟨l2, h2, p2, g2⟩ := bind_spec m k s l1 h1 g1 hk (by simp)
  refine ⟨l1 ++ l2, h2, ?_, g2⟩
  intro e he
  rcases List.mem_append.1 he with h | h
  · exact p1 e h
  · exact p2 e h

theorem startup_server_spec (w : World) (i : Nat) (sv : Server) (s : Proc) :
    ∃ l, (startup_server w i sv s).state.trace = s.trace ++ l ∧ (∀ e ∈ l, EvPrep e) ∧
      Good (startup_server w i sv s) l := by
  unfold startup_server
  simp only []
  split
  · simp [Outcome.state, die, sys_socket, record, EvPrep, Good,
      Call.changesIdentity, Call.isChroot, Call.isChdir]
  · rename_i h90
    split
    · simp [Outcome.state, die, sys_socket, sys_on_fd, record, EvPrep, Good,
        Call.changesIdentity, Call.isChroot, Call.isChdir]
    · rename_i h94
      split
      · simp [Outcome.state, die, sys_socket, sys_on_fd, record, EvPrep, Good,
          Call.changesIdentity, Call.isChroot, Call.isChdir]
      · rename_i h103
        split
        · simp [Outcome.state, die, sys_socket, sys_on_fd, record, EvPrep, Good,
            Call.changesIdentity, Call.isChroot, Call.isChdir]
        · rename_i h106
          simp only [sys_socket, sys_on_fd, record] at h90 h94 h103 h106
          simp [Outcome.state, sys_socket, sys_on_fd, record, EvPrep, Good, Clean,
            Call.changesIdentity, Call.isChroot, Call.isChdir, Event.failed, checkedLines]
          exact ⟨h90, h94, h103, h106⟩

theorem startup_servers_spec (w : World) (svs : List Server) : ∀ (i : Nat) (s : Proc),
    ∃ l, (startup_servers w i svs s).state.trace = s.trace ++ l ∧ (∀ e ∈ l, EvPrep e) ∧
      Good (startup_servers w i svs s) l := by
  induction svs with
  | nil => intro i s; exact ⟨[], by simp [startup_servers, Outcome.state], by simp, Or.inr Clean_nil⟩
  | cons sv rest ih =>
    intro i s
    simp only [startup_servers]
    refine bind_spec_all _ _ s (startup_server_spec w i sv s) ?_
    intro sv1 s1 _
    refine bind_spec_all _ _ s1 (ih (i + 1) s1) ?_
    intro l s2 _
    exact ⟨[], by simp [Outcome.state], by simp, Or.inr Clean_nil⟩

theorem main_config_spec (w : World) (cf : Option String) (s : Proc) :
    ∃ l, (main_config w cf s).state.trace = s.trace ++ l ∧ (∀ e ∈ l, EvPrep e) ∧
      Good (main_config w cf s) l := by
  unfold main_config
  simp only []
  cases hm : (w.config cf).message with
  | some msg =>
    simp [Outcome.state, die, record, EvPrep, Good, Call.changesIdentity, Call.isChroot, Call.isChdir]
  | none =>
    simp only []
    generalize hs0 : record _ 192 (Call.config cf) _ = s0
    have ht0 : s0.trace = s.trace ++ [⟨192, .config cf, 0⟩] := by
      rw [← hs0]; simp [record]
    obtain ⟨l, hl, hp, hg⟩ := bind_spec_all (P := EvPrep) (startup_servers w 0 s0.servers s0)
      (fun l s1 => Outcome.ret () { s1 with servers := l }) s0
      (startup_servers_spec w s0.servers 0 s0)
      (fun l s1 _ => ⟨[], by simp [Outcome.state], by simp, Or.inr Clean_nil⟩)
    refine ⟨⟨192, .config cf, 0⟩ :: l, ?_, ?_, ?_⟩
    · rw [hl, ht0]; simp
    · intro e he
      rcases List.mem_cons.1 he with rfl | h
      · exact evPrep_mk _ _ _ (by decide) rfl rfl rfl (by simp)
      · exact hp e h
    · rcases hg with hg | hg
      · exact Or.inl hg
      · refine Or.inr ?_
        intro e he
        rcases List.mem_cons.1 he with rfl | h
        · intro hc; simp [checkedLines] at hc
        · exact hg e h

/-! ## The change of identity, lines 206-224 -/

theorem k_setuid_nonroot (ok cap bsd : Bool) (i : Ids) (h : i.euid ≠ 0) :
    (k_setuid ok cap bsd i.euid i).2 =
      if ok = true ∧ (cap = true ∨ bsd = true) then { i with ruid := i.euid, suid := i.euid }
      else i := by
  by_cases hc : i.euid = i.ruid ∨ i.euid = i.suid <;> cases ok <;> cases cap <;> cases bsd <;>
    simp [k_setuid, h, hc]

theorem k_setuid_root (ok cap bsd : Bool) (i : Ids) (h : i.euid = 0) :
    (k_setuid ok cap bsd 0 i).2 = if ok then { i with ruid := 0, suid := 0 } else i := by
  cases ok <;> simp [k_setuid, h]

theorem k_initgroups_ok (ok : Bool) (g : Nat) (grp : List Nat) (i : Ids)
    (h : (k_initgroups ok g grp i).1 ≠ -1) :
    (k_initgroups ok g grp i).2 = { i with groups := g :: grp } := by
  unfold k_initgroups at h ⊢
  split
  · rfl
  · rename_i hc; simp [hc] at h

theorem k_setgid_ok (ok : Bool) (g : Nat) (i : Ids) (he : i.euid = 0)
    (h : (k_setgid ok g i).1 ≠ -1) :
    (k_setgid ok g i).2 = { i with rgid := g, egid := g, sgid := g } := by
  unfold k_setgid at h ⊢
  cases ok
  · simp at h
  · simp [he]

theorem k_seteuid_ok (ok : Bool) (u : Nat) (i : Ids) (he : i.euid = 0)
    (h : (k_seteuid ok u i).1 ≠ -1) :
    (k_seteuid ok u i).2 = { i with euid := u } := by
  unfold k_seteuid at h ⊢
  cases ok
  · simp at h
  · simp [he]

theorem k_setuid_ok (ok cap bsd : Bool) (u : Nat) (i : Ids) (he : i.euid = 0)
    (h : (k_setuid ok cap bsd u i).1 ≠ -1) :
    (k_setuid ok cap bsd u i).2 = { i with ruid := u, euid := u, suid := u } := by
  unfold k_setuid at h ⊢
  cases ok
  · simp at h
  · simp [he]

/-- What a completed superuser block has established. -/
theorem superuser_ret (w : World) (s s1 : Proc) (h : s.ids.euid = 0)
    (hr : main_superuser w s = .ret () s1) :
    ∃ name pw, s.user_name = some name ∧ w.passwd name = some pw ∧ pw.pw_uid ≠ 0 ∧
      s1.ids.rgid = pw.pw_gid ∧ s1.ids.egid = pw.pw_gid ∧ s1.ids.euid = pw.pw_uid ∧
      (s.stayroot = 0 → s1.ids.ruid = pw.pw_uid) ∧
      (s.stayroot ≠ 0 → s1.ids.ruid = s.ids.ruid) := by
  unfold main_superuser at hr
  cases hu : s.user_name with
  | none => simp [hu, die] at hr
  | some name =>
    simp only [hu] at hr
    cases hq : (sys_getpwnam w 210 name s).1 with
    | none => simp [hq, die] at hr
    | some pw =>
      have hp : w.passwd name = some pw := by
        simp only [sys_getpwnam] at hq
        split at hq
        · exact hq
        · cases hq
      refine ⟨name, pw, rfl, hp, ?_⟩
      simp only [hq] at hr
      split at hr
      · cases hr
      · rename_i hz
        refine ⟨hz, ?_⟩
        have e1 : (sys_getpwnam w 210 name s).2.ids = s.ids := rfl
        have e1s : (sys_getpwnam w 210 name s).2.stayroot = s.stayroot := rfl
        generalize (sys_getpwnam w 210 name s).2 = t1 at hr e1 e1s
        split at hr
        · cases hr
        · rename_i h213
          have e2 : (sys_initgroups w 213 name pw.pw_gid t1).2.ids =
              { s.ids with groups := pw.pw_gid :: w.grouplist name } := by
            have := k_initgroups_ok _ _ _ _ h213
            simp only [sys_initgroups, record]
            rw [this, e1]
          have e2s : (sys_initgroups w 213 name pw.pw_gid t1).2.stayroot = s.stayroot := e1s
          generalize (sys_initgroups w 213 name pw.pw_gid t1).2 = t2 at hr e2 e2s
          split at hr
          · cases hr
          · rename_i h215
            have e3 : (sys_setgid w 215 pw.pw_gid t2).2.ids =
                { s.ids with groups := pw.pw_gid :: w.grouplist name,
                             rgid := pw.pw_gid, egid := pw.pw_gid, sgid := pw.pw_gid } := by
              have := k_setgid_ok _ _ _ (by rw [e2]; exact h) h215
              simp only [sys_setgid, record]
              rw [this, e2]
            have e3s : (sys_setgid w 215 pw.pw_gid t2).2.stayroot = s.stayroot := e2s
            generalize (sys_setgid w 215 pw.pw_gid t2).2 = t3 at hr e3 e3s
            split at hr
            · rename_i hst
              split at hr
              · cases hr
              · rename_i h218
                have := k_seteuid_ok _ _ _ (by rw [e3]; exact h) h218
                injection hr with _ hs
                subst hs
                simp only [sys_seteuid, record]
                rw [this, e3]
                rw [e3s] at hst
                simp [hst]
            · rename_i hst
              split at hr
              · cases hr
              · rename_i h221
                have := k_setuid_ok _ _ _ _ _ (by rw [e3]; exact h) h221
                injection hr with _ hs
                subst hs
                simp only [sys_setuid, record]
                rw [this, e3]
                rw [e3s] at hst
                simp at hst
                simp [hst]

/-- The state in which the superuser block is entered. -/
theorem privdrop_root (w : World) (s : Proc) (h : s.ids.euid = 0) :
    ∃ t : Proc, main_privdrop w s = main_superuser w t ∧
      t.ids = (if w.ok 206 0 then { s.ids with ruid := 0, suid := 0 } else s.ids) ∧
      t.user_name = s.user_name ∧ t.stayroot = s.stayroot ∧
      t.trace = s.trace ++ [⟨206, .geteuid, 0⟩,
        ⟨206, .setuid 0, if w.ok 206 0 then 0 else -1⟩, ⟨207, .geteuid, 0⟩] := by
  have hk := k_setuid_root (w.ok 206 0) w.cap_setuid w.bsd_setuid s.ids h
  have he : (k_setuid (w.ok 206 0) w.cap_setuid w.bsd_setuid 0 s.ids).2.euid = 0 := by
    rw [hk]; split <;> simp [h]
  have h1 : (k_setuid (w.ok 206 0) w.cap_setuid w.bsd_setuid 0 s.ids).1 =
      if w.ok 206 0 then 0 else -1 := by
    cases hok : w.ok 206 0 <;> simp [k_setuid, h]
  refine ⟨(sys_geteuid 207 (sys_setuid w 206 0 (sys_geteuid 206 s).2).2).2, ?_, ?_, rfl, rfl, ?_⟩
  · simp [main_privdrop, sys_geteuid, sys_setuid, record, h, he]
  · simpa [sys_geteuid, sys_setuid, record, h] using hk
  · simp [sys_geteuid, sys_setuid, record, h, he, h1]

/-- A process whose effective user id is not 0 skips the superuser block; the
call at line 206 sets its real and saved user id to the effective one when it
succeeds with appropriate privileges, and changes nothing otherwise. -/
theorem privdrop_nonroot (w : World) (s : Proc) (h : s.ids.euid ≠ 0) :
    ∃ rv i, main_privdrop w s = .ret ()
      { s with ids := i,
               trace := s.trace ++ [⟨206, .geteuid, s.ids.euid⟩, ⟨206, .setuid s.ids.euid, rv⟩,
                 ⟨207, .geteuid, s.ids.euid⟩] } ∧
      i = (if w.ok 206 0 = true ∧ (w.cap_setuid = true ∨ w.bsd_setuid = true) then
            { s.ids with ruid := s.ids.euid, suid := s.ids.euid } else s.ids) ∧
      i.euid = s.ids.euid := by
  have hk := k_setuid_nonroot (w.ok 206 0) w.cap_setuid w.bsd_setuid s.ids h
  have he : (k_setuid (w.ok 206 0) w.cap_setuid w.bsd_setuid s.ids.euid s.ids).2.euid =
      s.ids.euid := by
    rw [hk]; split <;> rfl
  refine ⟨(k_setuid (w.ok 206 0) w.cap_setuid w.bsd_setuid s.ids.euid s.ids).1,
    (k_setuid (w.ok 206 0) w.cap_setuid w.bsd_setuid s.ids.euid s.ids).2, ?_, hk, he⟩
  simp [main_privdrop, sys_geteuid, sys_setuid, record, he, h]

/-- A run that gets past the change of identity has a non-zero effective user id. -/
theorem privdrop_ret_euid (w : World) (s s1 : Proc) (hr : main_privdrop w s = .ret () s1) :
    s1.ids.euid ≠ 0 := by
  by_cases h : s.ids.euid = 0
  · obtain ⟨t, ht, hid, _, _, _⟩ := privdrop_root w s h
    rw [ht] at hr
    have het : t.ids.euid = 0 := by rw [hid]; split <;> simp [h]
    obtain ⟨name, pw, _, _, hz, _, _, he, _⟩ := superuser_ret w t s1 het hr
    rw [he]; exact hz
  · obtain ⟨rv, i, hrv, _, hi⟩ := privdrop_nonroot w s h
    rw [hrv] at hr
    injection hr with _ hs
    subst hs
    simpa [hi] using h

/-- What a run that enters line 206 as superuser and gets past line 224 has established. -/
theorem privdrop_root_identity (w : World) (s s1 : Proc) (h : s.ids.euid = 0)
    (hr : main_privdrop w s = .ret () s1) :
    ∃ name pw, s.user_name = some name ∧ w.passwd name = some pw ∧ pw.pw_uid ≠ 0 ∧
      s1.ids.rgid = pw.pw_gid ∧ s1.ids.egid = pw.pw_gid ∧ s1.ids.euid = pw.pw_uid ∧
      (s.stayroot = 0 → s1.ids.ruid = pw.pw_uid) ∧
      (s.stayroot ≠ 0 → s1.ids.ruid = if w.ok 206 0 then 0 else s.ids.ruid) := by
  obtain ⟨t, ht, hid, hun, hst, _⟩ := privdrop_root w s h
  rw [ht] at hr
  have het : t.ids.euid = 0 := by rw [hid]; split <;> simp [h]
  obtain ⟨name, pw, h1, h2, h3, h4, h5, h6, h7, h8⟩ := superuser_ret w t s1 het hr
  refine ⟨name, pw, by rw [← hun]; exact h1, h2, h3, h4, h5, h6, ?_, ?_⟩
  · intro hs; exact h7 (by rw [hst]; exact hs)
  · intro hs
    rw [h8 (by rw [hst]; exact hs), hid]
    split <;> rfl

/-! ## Traces of the identity phase and of the later phases -/

theorem k_initgroups_rv (ok : Bool) (g : Nat) (grp : List Nat) (i : Ids)
    (h : (k_initgroups ok g grp i).1 ≠ -1) : (k_initgroups ok g grp i).1 = 0 := by
  unfold k_initgroups at h ⊢
  split
  · rfl
  · rename_i hc; simp [hc] at h

theorem k_setgid_rv (ok : Bool) (g : Nat) (i : Ids)
    (h : (k_setgid ok g i).1 ≠ -1) : (k_setgid ok g i).1 = 0 := by
  unfold k_setgid at h ⊢
  split
  · split
    · rfl
    · split
      · rfl
      · rename_i h1 h2 h3; simp [h1, h2, h3] at h
  · rename_i hc; simp [hc] at h

theorem GroupsFirst_mono (w : World) (A pre : List Event) (e : Event)
    (h : GroupsFirst w pre e) : GroupsFirst w (A ++ pre) e := by
  obtain ⟨name, pw, rv, a, b, c, h1, h2, h3⟩ := h
  exact ⟨name, pw, rv, A ++ a, b, c, h1, h2, by rw [h3, List.append_assoc]⟩

theorem evIdent_mk (line : Nat) (c : Call) (rv : Int) (h1 : 206 ≤ line) (h2 : line ≤ 221)
    (h3 : c.isChroot = false) (h4 : c ≠ .httpd_main)
    (h5 : ∀ u, c = .setuid u ∨ c = .seteuid u → line = 206 ∨ line = 218 ∨ line = 221) :
    EvIdent ⟨line, c, rv⟩ :=
  ⟨h1, h2, h3, h4, h5⟩

theorem main_superuser_spec (w : World) (s : Proc) :
    ∃ l, (main_superuser w s).state.trace = s.trace ++ l ∧ (∀ e ∈ l, EvIdent e) ∧
      Good (main_superuser w s) l ∧ Guarded Event.isTarget (GroupsFirst w) l := by
  unfold main_superuser
  cases hu : s.user_name with
  | none =>
    exact ⟨[], by simp [die, Outcome.state], by simp, Or.inl ⟨_, rfl⟩, Guarded_of_none (by simp)⟩
  | some name =>
    simp only []
    have hgp : EvIdent ⟨210, .getpwnam name, if (sys_getpwnam w 210 name s).1.isSome then 1 else 0⟩ :=
      evIdent_mk _ _ _ (by decide) (by decide) rfl (by simp) (by simp)
    have htg : ¬ Event.isTarget ⟨210, .getpwnam name, if (sys_getpwnam w 210 name s).1.isSome then 1 else 0⟩ := by
      simp [Event.isTarget]
    have ht1 : (sys_getpwnam w 210 name s).2.trace = s.trace ++
        [⟨210, .getpwnam name, if (sys_getpwnam w 210 name s).1.isSome then 1 else 0⟩] := rfl
    have hst : (sys_getpwnam w 210 name s).2.stayroot = s.stayroot := rfl
    cases hq : (sys_getpwnam w 210 name s).1 with
    | none =>
      simp only [hq] at hgp htg ht1
      refine ⟨_, ht1, ?_, Or.inl ⟨_, rfl⟩, Guarded_of_none ?_⟩
      · simpa using hgp
      · simpa using htg
    | some pw =>
      have hp : w.passwd name = some pw := by
        simp only [sys_getpwnam] at hq
        split at hq
        · exact hq
        · cases hq
      simp only [hq] at hgp htg ht1
      simp only [Option.isSome, if_true] at hgp htg ht1
      generalize (sys_getpwnam w 210 name s).2 = t1 at ht1 hst ⊢
      simp only []
      split
      · refine ⟨_, ht1, ?_, Or.inl ⟨_, rfl⟩, Guarded_of_none ?_⟩
        · simpa using hgp
        · simpa using htg
      · rename_i hz
        have hig : EvIdent ⟨213, .initgroups name pw.pw_gid, (sys_initgroups w 213 name pw.pw_gid t1).1⟩ :=
          evIdent_mk _ _ _ (by decide) (by decide) rfl (by simp) (by simp)
        have ht2 : (sys_initgroups w 213 name pw.pw_gid t1).2.trace = s.trace ++
            [⟨210, .getpwnam name, 1⟩,
             ⟨213, .initgroups name pw.pw_gid, (sys_initgroups w 213 name pw.pw_gid t1).1⟩] := by
          simp [sys_initgroups, record, ht1]
        have hst2 : (sys_initgroups w 213 name pw.pw_gid t1).2.stayroot = s.stayroot := hst
        split
        · refine ⟨_, ht2, ?_, Or.inl ⟨_, rfl⟩, Guarded_of_none ?_⟩
          · intro e he; simp at he; rcases he with rfl | rfl
            · exact hgp
            · exact hig
          · intro e he; simp at he; rcases he with rfl | rfl <;> simp [Event.isTarget]
        · rename_i h213
          have r213 : (sys_initgroups w 213 name pw.pw_gid t1).1 = 0 :=
            k_initgroups_rv _ _ _ _ h213
          rw [r213] at ht2 hig
          generalize (sys_initgroups w 213 name pw.pw_gid t1).2 = t2 at ht2 hst2 ⊢
          have hsg : EvIdent ⟨215, .setgid pw.pw_gid, (sys_setgid w 215 pw.pw_gid t2).1⟩ :=
            evIdent_mk _ _ _ (by decide) (by decide) rfl (by simp) (by simp)
          have ht3 : (sys_setgid w 215 pw.pw_gid t2).2.trace = s.trace ++
              [⟨210, .getpwnam name, 1⟩, ⟨213, .initgroups name pw.pw_gid, 0⟩,
               ⟨215, .setgid pw.pw_gid, (sys_setgid w 215 pw.pw_gid t2).1⟩] := by
            simp [sys_setgid, record, ht2]
          have hst3 : (sys_setgid w 215 pw.pw_gid t2).2.stayroot = s.stayroot := hst2
          split
          · refine ⟨_, ht3, ?_, Or.inl ⟨_, rfl⟩, Guarded_of_none ?_⟩
            · intro e he; simp at he; rcases he with rfl | rfl | rfl
              · exact hgp
              · exact hig
              · exact hsg
            · intro e he; simp at he; rcases he with rfl | rfl | rfl <;> simp [Event.isTarget]
          · rename_i h215
            have r215 : (sys_setgid w 215 pw.pw_gid t2).1 = 0 := k_setgid_rv _ _ _ h215
            rw [r215] at ht3 hsg
            generalize (sys_setgid w 215 pw.pw_gid t2).2 = t3 at ht3 hst3 ⊢
            have hpre : ∀ e ∈ ([⟨210, .getpwnam name, 1⟩, ⟨213, .initgroups name pw.pw_gid, 0⟩,
                ⟨215, .setgid pw.pw_gid, 0⟩] : List Event), EvIdent e ∧ ¬ e.isTarget ∧
                  (e.line ∈ checkedLines → ¬ e.failed) := by
              intro e he; simp at he; rcases he with rfl | rfl | rfl
              · exact ⟨hgp, by simp [Event.isTarget], by simp [Event.failed]⟩
              · exact ⟨hig, by simp [Event.isTarget], by simp [Event.failed]⟩
              · exact ⟨hsg, by simp [Event.isTarget], by simp [Event.failed]⟩
            have hgf : ∀ rv, GroupsFirst w [⟨210, .getpwnam name, 1⟩, ⟨213, .initgroups name pw.pw_gid, 0⟩,
                ⟨215, .setgid pw.pw_gid, 0⟩] ⟨218, .seteuid pw.pw_uid, rv⟩ ∧
                GroupsFirst w [⟨210, .getpwnam name, 1⟩, ⟨213, .initgroups name pw.pw_gid, 0⟩,
                ⟨215, .setgid pw.pw_gid, 0⟩] ⟨221, .setuid pw.pw_uid, rv⟩ := by
              intro rv
              exact ⟨⟨name, pw, rv, [⟨210, .getpwnam name, 1⟩], [], [], hp, Or.inl rfl, rfl⟩,
                ⟨name, pw, rv, [⟨210, .getpwnam name, 1⟩], [], [], hp, Or.inr rfl, rfl⟩⟩
            split
            · have ht4 : (sys_seteuid w 218 pw.pw_uid t3).2.trace = s.trace ++
                  ([⟨210, .getpwnam name, 1⟩, ⟨213, .initgroups name pw.pw_gid, 0⟩,
                   ⟨215, .setgid pw.pw_gid, 0⟩] ++
                   [⟨218, .seteuid pw.pw_uid, (sys_seteuid w 218 pw.pw_uid t3).1⟩]) := by
                simp [sys_seteuid, record, ht3]
              have hev : ∀ e ∈ ([⟨210, .getpwnam name, 1⟩, ⟨213, .initgroups name pw.pw_gid, 0⟩,
                   ⟨215, .setgid pw.pw_gid, 0⟩] ++
                   [⟨218, .seteuid pw.pw_uid, (sys_seteuid w 218 pw.pw_uid t3).1⟩] : List Event),
                   EvIdent e := by
                intro e he
                rcases List.mem_append.1 he with h | h
                · exact (hpre e h).1
                · simp only [List.mem_singleton] at h; subst h
                  exact evIdent_mk _ _ _ (by decide) (by decide) rfl (by simp) (by simp)
              have hgd := Guarded_snoc (T := Event.isTarget) (R := GroupsFirst w)
                (fun x hx => (hpre x hx).2.1) (hgf (sys_seteuid w 218 pw.pw_uid t3).1).1
              split
              · exact ⟨_, ht4, hev, Or.inl ⟨_, rfl⟩, hgd⟩
              · rename_i h218
                refine ⟨_, ht4, hev, Or.inr ?_, hgd⟩
                intro e he
                rcases List.mem_append.1 he with h | h
                · exact (hpre e h).2.2
                · simp only [List.mem_singleton] at h; subst h
                  intro _; simpa [Event.failed] using h218
            · have ht4 : (sys_setuid w 221 pw.pw_uid t3).2.trace = s.trace ++
                  ([⟨210, .getpwnam name, 1⟩, ⟨213, .initgroups name pw.pw_gid, 0⟩,
                   ⟨215, .setgid pw.pw_gid, 0⟩] ++
                   [⟨221, .setuid pw.pw_uid, (sys_setuid w 221 pw.pw_uid t3).1⟩]) := by
                simp [sys_setuid, record, ht3]
              have hev : ∀ e ∈ ([⟨210, .getpwnam name, 1⟩, ⟨213, .initgroups name pw.pw_gid, 0⟩,
                   ⟨215, .setgid pw.pw_gid, 0⟩] ++
                   [⟨221, .setuid pw.pw_uid, (sys_setuid w 221 pw.pw_uid t3).1⟩] : List Event),
                   EvIdent e := by
                intro e he
                rcases List.mem_append.1 he with h | h
                · exact (hpre e h).1
                · simp only [List.mem_singleton] at h; subst h
                  exact evIdent_mk _ _ _ (by decide) (by decide) rfl (by simp) (by simp)
              have hgd := Guarded_snoc (T := Event.isTarget) (R := GroupsFirst w)
                (fun x hx => (hpre x hx).2.1) (hgf (sys_setuid w 221 pw.pw_uid t3).1).2
              split
              · exact ⟨_, ht4, hev, Or.inl ⟨_, rfl⟩, hgd⟩
              · rename_i h221
                refine ⟨_, ht4, hev, Or.inr ?_, hgd⟩
                intro e he
                rcases List.mem_append.1 he with h | h
                · exact (hpre e h).2.2
                · simp only [List.mem_singleton] at h; subst h
                  intro _; simpa [Event.failed] using h221

theorem main_privdrop_spec (w : World) (s : Proc) :
    ∃ l, (main_privdrop w s).state.trace = s.trace ++ l ∧ (∀ e ∈ l, EvIdent e) ∧
      Good (main_privdrop w s) l ∧ Guarded Event.isTarget (GroupsFirst w) l := by
  by_cases h : s.ids.euid = 0
  · obtain ⟨t, ht, _, _, _, htr⟩ := privdrop_root w s h
    obtain ⟨l, hl, hp, hg, hgd⟩ := main_superuser_spec w t
    rw [ht]
    have hA : ∃ A : List Event, t.trace = s.trace ++ A ∧
        ∀ e ∈ A, EvIdent e ∧ ¬ e.isTarget ∧ e.line ∉ checkedLines := by
      refine ⟨_, htr, ?_⟩
      intro e he; simp at he
      rcases he with rfl | rfl | rfl
      · exact ⟨evIdent_mk _ _ _ (by decide) (by decide) rfl (by simp) (by simp),
          by simp [Event.isTarget], by simp [checkedLines]⟩
      · exact ⟨evIdent_mk _ _ _ (by decide) (by decide) rfl (by simp) (by simp),
          by simp [Event.isTarget], by simp [checkedLines]⟩
      · exact ⟨evIdent_mk _ _ _ (by decide) (by decide) rfl (by simp) (by simp),
          by simp [Event.isTarget], by simp [checkedLines]⟩
    clear htr
    obtain ⟨A, htr, hA⟩ := hA
    refine ⟨A ++ l, ?_, ?_, ?_, ?_⟩
    · rw [hl, htr, List.append_assoc]
    · intro e he
      rcases List.mem_append.1 he with h1 | h1
      · exact (hA e h1).1
      · exact hp e h1
    · rcases hg with hg | hg
      · exact Or.inl hg
      · exact Or.inr (Clean_append (Clean_of_lines (fun e he => (hA e he).2.2)) hg)
    · exact Guarded_append_left (fun e he => (hA e he).2.1) hgd (GroupsFirst_mono w _)
  · obtain ⟨rv, i, hrv, _, _⟩ := privdrop_nonroot w s h
    rw [hrv]
    refine ⟨_, rfl, ?_, Or.inr (Clean_of_lines ?_), Guarded_of_none ?_⟩
    · intro e he; simp at he
      rcases he with rfl | rfl | rfl <;>
        exact evIdent_mk _ _ _ (by decide) (by decide) rfl (by simp) (by simp)
    · intro e he; simp at he
      rcases he with rfl | rfl | rfl <;> simp [checkedLines]
    · intro e he; simp at he
      rcases he with rfl | rfl | rfl <;> simp [Event.isTarget]

theorem evLate_mk (line : Nat) (c : Call) (rv : Int) (h1 : 225 ≤ line)
    (h2 : c.isChroot = false) (h3 : c.changesIdentity = false) (h4 : c ≠ .httpd_main) :
    EvLate ⟨line, c, rv⟩ :=
  ⟨h1, h2, h3, h4⟩

theorem main_core_spec (w : World) (s : Proc) :
    ∃ l, (main_core w s).state.trace = s.trace ++ l ∧ (∀ e ∈ l, EvLate e) ∧
      Good (main_core w s) l := by
  unfold main_core
  simp only []
  split
  · simp [Outcome.state, die, sys_getrlimit, record, EvLate, Good,
      Call.changesIdentity, Call.isChroot]
  · rename_i h225
    cases hcd : (sys_getrlimit w 225 Resource.RLIMIT_CORE s).2.coredir with
    | none =>
      simp only [sys_getrlimit, record] at h225
      simp [Outcome.state, sys_getrlimit, sys_chdir, sys_setrlimit_core, record, EvLate, Good, Clean,
        Call.changesIdentity, Call.isChroot, Event.failed, checkedLines]
      exact h225
    | some d =>
      simp only []
      split
      · simp [Outcome.state, die, sys_getrlimit, sys_chdir, record, EvLate, Good,
          Call.changesIdentity, Call.isChroot]
      · rename_i h229
        simp only [sys_getrlimit, sys_chdir, record] at h225 h229
        simp [Outcome.state, sys_getrlimit, sys_chdir, sys_setrlimit_core, record, EvLate, Good, Clean,
          Call.changesIdentity, Call.isChroot, Event.failed, checkedLines]
        exact ⟨h225, h229⟩

theorem main_core_ids (w : World) (s : Proc) : (main_core w s).state.ids = s.ids := by
  unfold main_core
  simp only []
  split
  · rfl
  · cases (sys_getrlimit w 225 Resource.RLIMIT_CORE s).2.coredir with
    | none => rfl
    | some d =>
      simp only []
      split <;> rfl

theorem main_daemon_spec (w : World) (am_daemon null_fd pid_fd : Int) (s : Proc) :
    ∃ l, (main_daemon w am_daemon null_fd pid_fd s).state.trace = s.trace ++ l ∧
      (∀ e ∈ l, EvLate e ∧ e.line ∉ checkedLines) := by
  unfold main_daemon
  simp only []
  by_cases hd : am_daemon = 0
  · by_cases hp : pid_fd = -1
    · simp [hd, hp, Outcome.bind, Outcome.state, main_signals, mysignal, sys_dup2, sys_close, sys_getpid,
        sys_other, record, EvLate, checkedLines, Call.isChroot, Call.changesIdentity]
    · simp [hd, hp, Outcome.bind, Outcome.state, main_signals, mysignal, sys_dup2, sys_close, sys_getpid,
        sys_other, sys_on_fd, record, EvLate, checkedLines, Call.isChroot, Call.changesIdentity]
  · by_cases h248 : w.fork_ret 248 = 0
    · by_cases h251 : w.fork_ret 251 = 0
      · by_cases hp : pid_fd = -1
        · simp [hd, hp, h248, h251, Outcome.bind, Outcome.state, main_signals, mysignal, sys_dup2,
            sys_close, sys_getpid, sys_fork,
            sys_other, record, EvLate, checkedLines, Call.isChroot, Call.changesIdentity]
        · simp [hd, hp, h248, h251, Outcome.bind, Outcome.state, main_signals, mysignal, sys_dup2,
            sys_close, sys_getpid, sys_fork,
            sys_other, sys_on_fd, record, EvLate, checkedLines, Call.isChroot, Call.changesIdentity]
      · simp [hd, h248, h251, Outcome.bind, Outcome.state, sys_dup2,
            sys_close, sys_fork, sys_other, record, EvLate, checkedLines, Call.isChroot,
            Call.changesIdentity]
    · simp [hd, h248, Outcome.bind, Outcome.state, sys_dup2,
            sys_close, sys_fork, sys_other, record, EvLate, checkedLines, Call.isChroot,
            Call.changesIdentity]

theorem main_daemon_good (w : World) (am_daemon null_fd pid_fd : Int) (s : Proc) :
    ∃ l, (main_daemon w am_daemon null_fd pid_fd s).state.trace = s.trace ++ l ∧
      (∀ e ∈ l, EvLate e) ∧ Good (main_daemon w am_daemon null_fd pid_fd s) l := by
  obtain ⟨l, hl, hp⟩ := main_daemon_spec w am_daemon null_fd pid_fd s
  exact ⟨l, hl, fun e he => (hp e he).1, Or.inr (Clean_of_lines (fun e he => (hp e he).2))⟩

theorem main_pidfile_spec (w : World) (am_daemon null_fd : Int) (s : Proc) :
    ∃ l, (main_pidfile w am_daemon null_fd s).state.trace = s.trace ++ l ∧
      (∀ e ∈ l, EvLate e) ∧ Good (main_pidfile w am_daemon null_fd s) l := by
  unfold main_pidfile
  simp only []
  have hum : EvLate ⟨236, .umask s.fcm, s.umask⟩ ∧ (236 : Nat) ∉ checkedLines :=
    ⟨evLate_mk _ _ _ (by decide) rfl rfl (by simp), by decide⟩
  have ht1 : (sys_umask 236 s.fcm s).2.trace = s.trace ++ [⟨236, .umask s.fcm, s.umask⟩] := rfl
  generalize (sys_umask 236 s.fcm s).2 = s1 at ht1 ⊢
  cases hpf : s1.pid_filename with
  | none =>
    simp only []
    obtain ⟨l, hl, hp, hg⟩ := main_daemon_good w am_daemon null_fd (-1) s1
    refine ⟨⟨236, .umask s.fcm, s.umask⟩ :: l, ?_, ?_, ?_⟩
    · rw [hl, ht1]; simp
    · intro e he
      rcases List.mem_cons.1 he with rfl | h
      · exact hum.1
      · exact hp e h
    · rcases hg with hg | hg
      · exact Or.inl hg
      · refine Or.inr ?_
        intro e he
        rcases List.mem_cons.1 he with rfl | h
        · intro hc; exact absurd hc hum.2
        · exact hg e h
  | some pf =>
    simp only []
    have hop : EvLate ⟨238, .open_ pf [.O_WRONLY, .O_CREAT], (sys_open w 238 0 pf [.O_WRONLY, .O_CREAT] s1).1⟩ ∧
        (238 : Nat) ∉ checkedLines :=
      ⟨evLate_mk _ _ _ (by decide) rfl rfl (by simp), by decide⟩
    have ht2 : (sys_open w 238 0 pf [.O_WRONLY, .O_CREAT] s1).2.trace = s.trace ++
        [⟨236, .umask s.fcm, s.umask⟩,
         ⟨238, .open_ pf [.O_WRONLY, .O_CREAT], (sys_open w 238 0 pf [.O_WRONLY, .O_CREAT] s1).1⟩] := by
      simp [sys_open, record, ht1]
    split
    · refine ⟨_, ht2, ?_, Or.inl ⟨_, rfl⟩⟩
      intro e he; simp at he
      rcases he with rfl | rfl
      · exact hum.1
      · exact hop.1
    · obtain ⟨l, hl, hp, hg⟩ := main_daemon_good w am_daemon null_fd
        (sys_open w 238 0 pf [.O_WRONLY, .O_CREAT] s1).1 (sys_open w 238 0 pf [.O_WRONLY, .O_CREAT] s1).2
      refine ⟨[⟨236, .umask s.fcm, s.umask⟩,
         ⟨238, .open_ pf [.O_WRONLY, .O_CREAT], (sys_open w 238 0 pf [.O_WRONLY, .O_CREAT] s1).1⟩] ++ l,
         ?_, ?_, ?_⟩
      · rw [hl, ht2, List.append_assoc]
      · intro e he
        rcases List.mem_append.1 he with h | h
        · simp at h
          rcases h with rfl | rfl
          · exact hum.1
          · exact hop.1
        · exact hp e h
      · rcases hg with hg | hg
        · exact Or.inl hg
        · refine Or.inr (Clean_append (Clean_of_lines ?_) hg)
          intro e he; simp at he
          rcases he with rfl | rfl
          · exact hum.2
          · exact hop.2

theorem main_daemon_ids (w : World) (am_daemon null_fd pid_fd : Int) (s : Proc) :
    (main_daemon w am_daemon null_fd pid_fd s).state.ids = s.ids := by
  unfold main_daemon
  simp only []
  split
  · split
    · rfl
    · split
      · rfl
      · simp only [Outcome.bind, Outcome.state]
        split <;> rfl
  · simp only [Outcome.bind, Outcome.state]
    split <;> rfl

theorem main_pidfile_ids (w : World) (am_daemon null_fd : Int) (s : Proc) :
    (main_pidfile w am_daemon null_fd s).state.ids = s.ids := by
  unfold main_pidfile
  simp only []
  cases hpf : (sys_umask 236 s.fcm s).2.pid_filename with
  | none => simp only []; rw [main_daemon_ids]; rfl
  | some pf =>
    simp only []
    split
    · rfl
    · rw [main_daemon_ids]; rfl

theorem bind_ret {α β : Type} {m : Outcome α} {k : α → Proc → Outcome β} {b : β} {s2 : Proc}
    (h : m.bind k = .ret b s2) : ∃ a s1, m = .ret a s1 ∧ k a s1 = .ret b s2 := by
  cases m with
  | ret a s1 => exact ⟨a, s1, rfl, h⟩
  | exit c s1 => cases h
  | hang s1 => cases h
  | killed g s1 => cases h

/-- A run of `main` that reaches the call of `httpd_main` has a non-zero
effective user id there. -/
theorem main_startup_euid (w : World) (o : Options) (s s1 : Proc)
    (h : main_startup w o s = .ret () s1) : s1.ids.euid ≠ 0 := by
  unfold main_startup at h
  obtain ⟨null_fd, sa, _, h⟩ := bind_ret h
  obtain ⟨_, sb, _, h⟩ := bind_ret h
  obtain ⟨_, sc, _, h⟩ := bind_ret h
  obtain ⟨_, sd, hd, h⟩ := bind_ret h
  obtain ⟨_, se, he, h⟩ := bind_ret h
  have h1 := privdrop_ret_euid w sc sd hd
  have h2 := main_core_ids w sd
  rw [he] at h2
  have h3 := main_pidfile_ids w o.am_daemon null_fd se
  rw [h] at h3
  simp only [Outcome.state] at h2 h3
  rw [h3, h2]
  exact h1

theorem ShapeIdent_nil (w : World) : ShapeIdent w [] :=
  ⟨[], [], rfl, by simp, Guarded_of_none (by simp), by simp⟩

theorem ShapeJail_nil (w : World) : ShapeJail w [] :=
  ⟨[], [], rfl, by simp, by simp, ShapeIdent_nil w⟩

theorem ShapeMain_nil (w : World) : ShapeMain w [] :=
  ⟨[], [], rfl, by simp, ShapeJail_nil w⟩

theorem spec_late (w : World) (o : Options) (null_fd : Int) (sd : Proc) :
    ∃ l, ((main_core w sd).bind (fun _ s => main_pidfile w o.am_daemon null_fd s)).state.trace
        = sd.trace ++ l ∧ (∀ e ∈ l, EvLate e) ∧
      Good ((main_core w sd).bind (fun _ s => main_pidfile w o.am_daemon null_fd s)) l :=
  bind_spec_all _ _ sd (main_core_spec w sd) (fun _ se _ => main_pidfile_spec w o.am_daemon null_fd se)

theorem spec_ident (w : World) (o : Options) (null_fd : Int) (sc : Proc) :
    ∃ l, ((main_privdrop w sc).bind (fun _ s =>
        (main_core w s).bind (fun _ s => main_pidfile w o.am_daemon null_fd s))).state.trace
        = sc.trace ++ l ∧ ShapeIdent w l ∧
      Good ((main_privdrop w sc).bind (fun _ s =>
        (main_core w s).bind (fun _ s => main_pidfile w o.am_daemon null_fd s))) l := by
  obtain ⟨l4, h4, p4, g4, d4⟩ := main_privdrop_spec w sc
  obtain ⟨lr, hr, pr, gr⟩ := bind_spec (Q := fun l => ∀ e ∈ l, EvLate e) (main_privdrop w sc)
    (fun _ s => (main_core w s).bind (fun _ s => main_pidfile w o.am_daemon null_fd s)) sc l4 h4 g4
    (fun _ sd _ => spec_late w o null_fd sd) (by simp)
  exact ⟨l4 ++ lr, hr, ⟨l4, lr, rfl, p4, d4, pr⟩, gr⟩

theorem spec_jail (w : World) (o : Options) (null_fd : Int) (sb : Proc) :
    ∃ l, ((main_chroot w sb).bind (fun _ s => (main_privdrop w s).bind (fun _ s =>
        (main_core w s).bind (fun _ s => main_pidfile w o.am_daemon null_fd s)))).state.trace
        = sb.trace ++ l ∧ ShapeJail w l ∧
      Good ((main_chroot w sb).bind (fun _ s => (main_privdrop w s).bind (fun _ s =>
        (main_core w s).bind (fun _ s => main_pidfile w o.am_daemon null_fd s)))) l := by
  obtain ⟨l3, h3, p3, g3, t3⟩ := main_chroot_spec w sb
  obtain ⟨lr, hr, pr, gr⟩ := bind_spec (Q := ShapeIdent w) (main_chroot w sb)
    (fun _ s => (main_privdrop w s).bind (fun _ s =>
        (main_core w s).bind (fun _ s => main_pidfile w o.am_daemon null_fd s))) sb l3 h3 g3
    (fun _ sc _ => spec_ident w o null_fd sc) (ShapeIdent_nil w)
  exact ⟨l3 ++ lr, hr, ⟨l3, lr, rfl, p3, t3, pr⟩, gr⟩

theorem spec_config (w : World) (o : Options) (null_fd : Int) (sa : Proc) :
    ∃ l, ((main_config w o.config_filename sa).bind (fun _ s =>
        (main_chroot w s).bind (fun _ s => (main_privdrop w s).bind (fun _ s =>
        (main_core w s).bind (fun _ s => main_pidfile w o.am_daemon null_fd s))))).state.trace
        = sa.trace ++ l ∧ ShapeMain w l ∧
      Good ((main_config w o.config_filename sa).bind (fun _ s =>
        (main_chroot w s).bind (fun _ s => (main_privdrop w s).bind (fun _ s =>
        (main_core w s).bind (fun _ s => main_pidfile w o.am_daemon null_fd s))))) l := by
  obtain ⟨l2, h2, p2, g2⟩ := main_config_spec w o.config_filename sa
  obtain ⟨lr, hr, pr, gr⟩ := bind_spec (Q := ShapeJail w) (main_config w o.config_filename sa)
    (fun _ s => (main_chroot w s).bind (fun _ s => (main_privdrop w s).bind (fun _ s =>
        (main_core w s).bind (fun _ s => main_pidfile w o.am_daemon null_fd s)))) sa l2 h2 g2
    (fun _ sb _ => spec_jail w o null_fd sb) (ShapeJail_nil w)
  exact ⟨l2 ++ lr, hr, ⟨l2, lr, rfl, p2, pr⟩, gr⟩

theorem main_startup_spec (w : World) (o : Options) (s : Proc) :
    ∃ l, (main_startup w o s).state.trace = s.trace ++ l ∧ ShapeMain w l ∧
      Good (main_startup w o s) l := by
  unfold main_startup
  obtain ⟨l1, h1, p1, g1⟩ := main_fds_spec w s
  obtain ⟨lr, hr, pr, gr⟩ := bind_spec (Q := ShapeMain w) (main_fds w s)
    (fun null_fd s => (main_config w o.config_filename s).bind (fun _ s =>
        (main_chroot w s).bind (fun _ s => (main_privdrop w s).bind (fun _ s =>
        (main_core w s).bind (fun _ s => main_pidfile w o.am_daemon null_fd s))))) s l1 h1 g1
    (fun null_fd sa _ => spec_config w o null_fd sa) (ShapeMain_nil w)
  obtain ⟨lA, lR, e1, pA, pR⟩ := pr
  refine ⟨l1 ++ lr, hr, ⟨l1 ++ lA, lR, by rw [e1, List.append_assoc], ?_, pR⟩, gr⟩
  intro e he
  rcases List.mem_append.1 he with h | h
  · exact p1 e h
  · exact pA e h

/-! ## Consequences of the shape of the trace -/

theorem shape_target (w : World) (l : List Event) (h : ShapeMain w l) :
    Guarded Event.isTarget (GroupsFirst w) l := by
  obtain ⟨lA, lR, rfl, pA, lB, lR2, rfl, pB, _, lC, lD, rfl, pC, gC, pD⟩ := h
  refine Guarded_append_left ?_ ?_ (GroupsFirst_mono w lA)
  · intro x hx ht
    have := (pA x hx).1
    rcases ht with ht | ht <;> omega
  refine Guarded_append_left ?_ ?_ (GroupsFirst_mono w lB)
  · intro x hx ht
    have := (pB x hx).1
    rcases ht with ht | ht <;> omega
  refine Guarded_append_right gC ?_
  intro x hx ht
  have := (pD x hx).1
  rcases ht with ht | ht <;> omega

theorem shape_chroot (w : World) (l : List Event) (h : ShapeMain w l) :
    Guarded (fun e => e.call.isChroot = true) NoneBefore l := by
  obtain ⟨lA, lR, rfl, pA, lB, lR2, rfl, pB, tB, lC, lD, rfl, pC, gC, pD⟩ := h
  have hrest : ∀ x ∈ lC ++ lD, ¬ x.call.isChroot = true := by
    intro x hx
    rcases List.mem_append.1 hx with h | h
    · rw [(pC x h).2.2.1]; simp
    · rw [(pD x h).2.1]; simp
  refine Guarded_append_left ?_ ?_ ?_
  · intro x hx
    rw [(pA x hx).2.1]; simp
  · cases lB with
    | nil => exact Guarded_of_none (by simpa using hrest)
    | cons c t =>
      refine Guarded_cons ?_ ?_
      · intro x hx; cases hx
      · intro x hx
        rcases List.mem_append.1 hx with h | h
        · rw [tB x (by simpa using h)]; simp
        · exact hrest x h
  · intro pre e hpre x hx
    rcases List.mem_append.1 hx with h | h
    · exact ⟨(pA x h).2.2.1, (pA x h).2.2.2.1⟩
    · exact hpre x h

theorem shape_setuid (w : World) (l : List Event) (h : ShapeMain w l) :
    ∀ e ∈ l, ∀ u, e.call = .setuid u ∨ e.call = .seteuid u → e.line = 206 ∨ e.isTarget := by
  obtain ⟨lA, lR, rfl, pA, lB, lR2, rfl, pB, tB, lC, lD, rfl, pC, gC, pD⟩ := h
  intro e he u hu
  have hid : e.call.changesIdentity = true := by
    rcases hu with h | h <;> rw [h] <;> rfl
  rcases List.mem_append.1 he with h | h
  · rw [(pA e h).2.2.2.1] at hid; cases hid
  rcases List.mem_append.1 h with h | h
  · rw [(pB e h).2.1] at hid; cases hid
  rcases List.mem_append.1 h with h | h
  · rcases (pC e h).2.2.2.2 u hu with h1 | h1 | h1
    · exact Or.inl h1
    · exact Or.inr (Or.inl h1)
    · exact Or.inr (Or.inr h1)
  · rw [(pD e h).2.2.1] at hid; cases hid

theorem shape_no_httpd (w : World) (l : List Event) (h : ShapeMain w l) :
    ∀ e ∈ l, e.call ≠ .httpd_main := by
  obtain ⟨lA, lR, rfl, pA, lB, lR2, rfl, pB, tB, lC, lD, rfl, pC, gC, pD⟩ := h
  intro e he
  rcases List.mem_append.1 he with h | h
  · exact (pA e h).2.2.2.2
  rcases List.mem_append.1 h with h | h
  · exact (pB e h).2.2
  rcases List.mem_append.1 h with h | h
  · exact (pC e h).2.2.2.1
  · exact (pD e h).2.2.2

/-! ## The loop over `dup` needs no more than four iterations -/

/-- With `null_fd` at 3 or above the loop is over. -/
theorem dup_loop_done (w : World) (fuel k : Nat) (fd : Int) (s : Proc) (h : ¬ fd < 3) :
    dup_loop w fuel k fd s = .ret fd s := by
  cases fuel <;> simp [dup_loop, h]

theorem k_dup_ok (ok : Bool) (limit : Nat) (fd : Int) (t : Fds)
    (h : (k_dup ok limit fd t).1 ≠ -1) :
    ∃ (n : Nat) (f : File), (k_dup ok limit fd t).1 = (n : Int) ∧ t (n : Int) = none ∧
      (k_dup ok limit fd t).2 = setfd t (n : Int) (some f) := by
  unfold k_dup at h ⊢
  cases hl : lookup t fd with
  | none => simp [hl] at h
  | some f =>
    simp only [hl] at h ⊢
    unfold alloc at h ⊢
    cases ok with
    | false => simp at h
    | true =>
      cases hf : lowestFree limit t with
      | none => simp [hf] at h
      | some n =>
        simp only [hf, if_true]
        exact ⟨n, f, rfl, lowestFree_free _ _ _ hf, rfl⟩

theorem free3_setfd (t : Fds) (n : Nat) (f : File) (hn : (n : Int) < 3) (hfree : t (n : Int) = none) :
    free3 (setfd t (n : Int) (some f)) < free3 t := by
  have h3 : n < 3 := by omega
  interval_cases n
  · simp only [Nat.cast_zero] at hfree
    simp [free3, setfd, hfree]
  · simp only [Nat.cast_one] at hfree
    simp [free3, setfd, hfree]
  · simp only [Nat.cast_ofNat] at hfree
    simp [free3, setfd, hfree]

/-- Unfolding the loop further than the number of free standard descriptors
allows does not change its outcome. -/
theorem dup_loop_fuel (w : World) (fuel : Nat) : ∀ (m k : Nat) (fd : Int) (s : Proc),
    free3 s.fds < fuel → dup_loop w (fuel + m) k fd s = dup_loop w fuel k fd s := by
  induction fuel with
  | zero => intro m k fd s h; omega
  | succ fuel ih =>
    intro m k fd s h
    rw [Nat.succ_add]
    simp only [dup_loop]
    split
    · split
      · rfl
      · rename_i hlt hrv
        obtain ⟨n, f, h1, h2, h3⟩ := k_dup_ok (w.ok 191 k) s.nofile.rlim_cur fd s.fds
          (by simpa [sys_dup] using hrv)
        by_cases hn : (sys_dup w 191 k fd s).1 < 3
        · apply ih
          have hfd : (sys_dup w 191 k fd s).2.fds = setfd s.fds (n : Int) (some f) := by
            simpa [sys_dup, record] using h3
          rw [hfd]
          have hn3 : (n : Int) < 3 := by
            have : (sys_dup w 191 k fd s).1 = (n : Int) := by simpa [sys_dup] using h1
            rw [this] at hn; exact hn
          have := free3_setfd s.fds n f hn3 h2
          omega
        · rw [dup_loop_done w _ _ _ _ hn, dup_loop_done w _ _ _ _ hn]
    · rfl

theorem free3_le (t : Fds) : free3 t < 4 := by
  unfold free3
  split <;> split <;> split <;> omega

/-- Four iterations are always enough: more fuel gives the same outcome. -/
theorem dup_loop_four (w : World) (m k : Nat) (fd : Int) (s : Proc) :
    dup_loop w (4 + m) k fd s = dup_loop w 4 k fd s :=
  dup_loop_fuel w 4 m k fd s (free3_le s.fds)

/-! ## The claims -/

/-- Claim C1, as amended.  In the child branch of `fork_request`, for every open
connection descriptor `fd` that is at least 3 and every child-log setting,
provided descriptors 0, 1 and 2 are in use when the child starts (so that a
newly opened log file gets a number of at least 3): the process exits with the
handler's result, and on the state `h` on which the handler is invoked
descriptors 0 and 1 refer to the connection, descriptor `fd` is closed,
descriptor 2 refers to the connection when `child_filename` is null or when
opening the log fails, and otherwise refers to the log file, whose own
descriptor is closed again. -/
theorem fork_request_child_descriptors (w : World) (r : Request) (f : Handler) (s : Proc)
    (conn : File) (hforked : s.forked = 0) (hfork : w.fork_ret 290 = 0)
    (hfd : 3 ≤ r.fd) (hconn : s.fds r.fd = some conn)
    (hstd : ∀ i : Int, 0 ≤ i → i < 3 → s.fds i ≠ none) :
    ∃ h : Proc,
      fork_request w r f s = .exit (f r h).1 (f r h).2 ∧
      h.fds 0 = some conn ∧ h.fds 1 = some conn ∧ h.fds r.fd = none ∧
      (r.child_filename = none → h.fds 2 = some conn) ∧
      (∀ name, r.child_filename = some name →
        ((w.ok 301 0 = false ∨ lowestFree s.nofile.rlim_cur s.fds = none) → h.fds 2 = some conn) ∧
        (∀ n, w.ok 301 0 = true → lowestFree s.nofile.rlim_cur s.fds = some n →
          h.fds 2 = some (.path name) ∧ h.fds (n : Int) = none)) := by
  refine ⟨record (fork_request_child w r (sys_fork w 290 s).2) 320 .handler 0, ?_, ?_⟩
  · simp [fork_request, hforked, sys_fork, hfork]
  · have := fork_child_fds w r (sys_fork w 290 s).2 conn hfd
      (by simpa [sys_fork, record] using hconn) (by simpa [sys_fork, record] using hstd)
    simpa [record, sys_fork] using this

/-- Witness for claim C1: a connection on descriptor 5 and a child log
`/var/log/child`, in the serving process. -/
theorem fork_request_child_descriptors_witness :
    ∃ h : Proc, h.fds 0 = some (.socket 9) ∧ h.fds 1 = some (.socket 9) ∧ h.fds 5 = none ∧
      h.fds 2 = some (.path "/var/log/child") ∧ h.fds 3 = none := by
  obtain ⟨h, _, h0, h1, h5, _, hlog⟩ :=
    fork_request_child_descriptors (exampleWorld 0) ⟨5, some "/var/log/child", none⟩ exampleHandler
      servingProc (.socket 9) rfl rfl (by decide) rfl
      (by intro i h0 h3; simp [servingProc, h0, h3])
  exact ⟨h, h0, h1, h5, ((hlog "/var/log/child" rfl).2 3 rfl rfl).1,
    ((hlog "/var/log/child" rfl).2 3 rfl rfl).2⟩

/-- Counterexample to claim C1 as stated.  When the connection is descriptor 0,
the handler is invoked with descriptor 0 closed (`close(fd)` at line 316 closes
it).  When the connection is descriptor 5 but descriptor 0 is free, the log
file is opened on 0, `dup2(fd, 0)` replaces it, and the handler is invoked
with descriptor 2 on the connection instead of the log, and descriptor 0 closed. -/
theorem fork_request_connection_on_stdin :
    (lookup stdinConnProc.fds 0 = some (.socket 9) ∧
      (fork_request (exampleWorld 0) ⟨0, none, none⟩ exampleHandler stdinConnProc).state.fds 0 = none) ∧
    (lookup stdinFreeProc.fds 5 = some (.socket 9) ∧
      (fork_request (exampleWorld 0) ⟨5, some "/var/log/child", none⟩ exampleHandler
        stdinFreeProc).state.fds 2 = some (.socket 9) ∧
      (fork_request (exampleWorld 0) ⟨5, some "/var/log/child", none⟩ exampleHandler
        stdinFreeProc).state.fds 0 = none) := by
  decide

/-- Claim C2.  For every request `r` and handler `f`, when `fork` is reached (the
guard `forked` is clear) and fails, returning -1, `fork_request` returns 503
with the request unchanged, and the process state is the one before the call
but for the two recorded calls `fork` and `lerror`: no descriptor is
duplicated or closed, `my_pid` and `forked` are unchanged, and the handler is
not entered. -/
theorem fork_request_fork_failure (w : World) (r : Request) (f : Handler) (s : Proc)
    (hforked : s.forked = 0) (hfork : w.fork_ret 290 = -1) :
    fork_request w r f s =
      .ret (503, r) { s with trace := s.trace ++ [⟨290, .fork, -1⟩, ⟨324, .lerror "fork", 0⟩] } := by
  simp [fork_request, hforked, sys_fork, hfork, lerror, record]

/-- Witness for claim C2: `fork` fails in the serving process. -/
theorem fork_request_fork_failure_witness :
    fork_request (exampleWorld (-1)) ⟨5, none, none⟩ exampleHandler servingProc =
      .ret (503, ⟨5, none, none⟩)
        { servingProc with
          trace := servingProc.trace ++ [⟨290, .fork, -1⟩, ⟨324, .lerror "fork", 0⟩] } :=
  fork_request_fork_failure (exampleWorld (-1)) ⟨5, none, none⟩ exampleHandler servingProc rfl rfl

/-- Claim C3.  For every request `r` and handler `f`, when `fork` is reached and
returns a positive process id, `fork_request` returns -1 with `status_line`
set to `---`, and the process state is the one before the call but for the two
recorded calls `fork` and `log_d`: the handler is not entered and no
descriptor of the parent is closed or rewired. -/
theorem fork_request_parent (w : World) (r : Request) (f : Handler) (s : Proc)
    (hforked : s.forked = 0) (hfork : 0 < w.fork_ret 290) :
    fork_request w r f s =
      .ret (-1, { r with status_line := some "---" })
        { s with trace := s.trace ++ [⟨290, .fork, w.fork_ret 290⟩,
            ⟨327, .log_d ("child process " ++ toString (w.fork_ret 290) ++ " created"), 0⟩] } := by
  have h0 : w.fork_ret 290 ≠ 0 := by omega
  have h1 : w.fork_ret 290 ≠ -1 := by omega
  simp [fork_request, hforked, sys_fork, h0, h1, log_d, record]

/-- Witness for claim C3: `fork` returns 1234 in the serving process. -/
theorem fork_request_parent_witness :
    fork_request (exampleWorld 1234) ⟨5, none, none⟩ exampleHandler servingProc =
      .ret (-1, ⟨5, none, some "---"⟩)
        { servingProc with
          trace := servingProc.trace ++ [⟨290, .fork, 1234⟩,
            ⟨327, .log_d ("child process " ++ toString (1234 : Int) ++ " created"), 0⟩] } :=
  fork_request_parent (exampleWorld 1234) ⟨5, none, none⟩ exampleHandler servingProc rfl
    (by decide)

/-- Claim C4, as amended.  In a process whose guard `forked` is set, an
invocation of `fork_request` terminates the process with exit status 1 and
leaves the state, trace included, untouched: `fork` is not called and the
handler is not entered.  The guard is set in the child that `fork_request`
creates, so any invocation from the state on which the handler runs
terminates in this way.  In the process in which `fork_request` returns (the
parent, or the caller after a failed `fork`) the guard stays clear. -/
theorem fork_request_guard (w : World) (r : Request) (f : Handler) (s : Proc) :
    (s.forked ≠ 0 → fork_request w r f s = .exit 1 s) ∧
    (∀ (w2 : World) (r2 : Request) (f2 : Handler),
      fork_request w2 r2 f2 (record (fork_request_child w r s) 320 .handler 0) =
        .exit 1 (record (fork_request_child w r s) 320 .handler 0)) ∧
    (s.forked = 0 → w.fork_ret 290 ≠ 0 → (fork_request w r f s).state.forked = 0) := by
  refine ⟨?_, ?_, ?_⟩
  · intro h
    simp [fork_request, h]
  · intro w2 r2 f2
    have : (record (fork_request_child w r s) 320 .handler 0).forked = 1 := by
      simp [record, fork_child_forked]
    simp [fork_request, this]
  · intro h0 h1
    by_cases h2 : w.fork_ret 290 = -1
    · simp [fork_request, h0, sys_fork, h2, lerror, record, Outcome.state]
    · simp [fork_request, h0, sys_fork, h1, h2, log_d, record, Outcome.state]

/-- Witness for claim C4: the guard set, and the guard clear with `fork`
returning 1234. -/
theorem fork_request_guard_witness :
    fork_request (exampleWorld 0) ⟨5, none, none⟩ exampleHandler { servingProc with forked := 1 } =
      .exit 1 { servingProc with forked := 1 } ∧
    (fork_request (exampleWorld 1234) ⟨5, none, none⟩ exampleHandler servingProc).state.forked = 0 :=
  ⟨(fork_request_guard (exampleWorld 0) ⟨5, none, none⟩ exampleHandler
      { servingProc with forked := 1 }).1 (by decide),
   (fork_request_guard (exampleWorld 1234) ⟨5, none, none⟩ exampleHandler servingProc).2.2 rfl
      (by decide)⟩

/-- Counterexample to claim C4 as stated.  The serving process executes
`fork_request` once, as the parent, and a second invocation in that same
process forks again and returns -1 instead of terminating the process. -/
theorem fork_request_parent_second_call :
    ∃ r1 s1 r2 s2,
      fork_request (exampleWorld 1234) ⟨5, none, none⟩ exampleHandler servingProc = .ret (-1, r1) s1 ∧
      fork_request (exampleWorld 1235) ⟨5, none, none⟩ exampleHandler s1 = .ret (-1, r2) s2 :=
  ⟨_, _, _, _, rfl, rfl⟩

/-- Claim C5.  Under the dispositions installed by lines 254-261 and starting
from all six flags clear: after delivery of any finite sequence of signals each
flag is 1 exactly when a signal bound to it occurs in the sequence (`SIGTERM`
and `SIGINT` both bound to `gotsigterm`) and 0 otherwise; two sequences with
the same set of signals yield the same flags; and each handler sets the flag
it is named after and changes no other flag. -/
theorem signal_flags (s0 s : Proc)
    (hd : s.sigdisp = (main_signals s0).sigdisp)
    (hz : ∀ fl, s.flag fl = 0) :
    (∀ l : List Signal, ∃ s1, deliver_all l s = .ret () s1 ∧
      ∀ fl, (s1.flag fl = 1 ↔ ∃ g ∈ l, flag_of_signal g = some fl) ∧
            (s1.flag fl = 0 ↔ ¬ ∃ g ∈ l, flag_of_signal g = some fl)) ∧
    (∀ l1 l2 : List Signal, (∀ g, g ∈ l1 ↔ g ∈ l2) →
      ∀ fl, (deliver_all l1 s).state.flag fl = (deliver_all l2 s).state.flag fl) ∧
    (∀ (h : SigHandler) (g : Signal) (t : Proc) (fl : Flag),
      (h.run g t).flag h.flag = 1 ∧ (fl ≠ h.flag → (h.run g t).flag fl = t.flag fl)) := by
  refine ⟨?_, ?_, ?_⟩
  · intro l
    obtain ⟨s1, h1, _, hf⟩ := deliver_all_installed s0 l s hd
    refine ⟨s1, h1, fun fl => ?_⟩
    rw [hf fl, hz fl]
    by_cases hr : ∃ g ∈ l, flag_of_signal g = some fl <;> simp [hr]
  · intro l1 l2 hset fl
    obtain ⟨s1, h1, _, hf1⟩ := deliver_all_installed s0 l1 s hd
    obtain ⟨s2, h2, _, hf2⟩ := deliver_all_installed s0 l2 s hd
    rw [h1, h2]
    simp only [Outcome.state]
    rw [hf1, hf2]
    have : (∃ g ∈ l1, flag_of_signal g = some fl) ↔ (∃ g ∈ l2, flag_of_signal g = some fl) := by
      constructor
      · rintro ⟨g, hg, hfg⟩; exact ⟨g, (hset g).1 hg, hfg⟩
      · rintro ⟨g, hg, hfg⟩; exact ⟨g, (hset g).2 hg, hfg⟩
    simp [this]
  · intro h g t fl
    rw [run_flag, run_flag]
    constructor
    · simp
    · intro hne; simp [hne]

/-- Witness for claim C5: the serving process receives `SIGHUP`, `SIGINT`,
`SIGHUP`; the same signals in another order and multiplicity give the same flags. -/
theorem signal_flags_witness :
    (∃ s1, deliver_all [.SIGHUP, .SIGINT, .SIGHUP] servingProc = .ret () s1 ∧
      ∀ fl, (s1.flag fl = 1 ↔ ∃ g ∈ [Signal.SIGHUP, .SIGINT, .SIGHUP], flag_of_signal g = some fl) ∧
            (s1.flag fl = 0 ↔ ¬ ∃ g ∈ [Signal.SIGHUP, .SIGINT, .SIGHUP], flag_of_signal g = some fl)) ∧
    (∀ fl, (deliver_all [.SIGHUP, .SIGINT, .SIGHUP] servingProc).state.flag fl =
      (deliver_all [.SIGINT, .SIGHUP] servingProc).state.flag fl) :=
  ⟨(signal_flags bootProc servingProc rfl (by intro fl; cases fl <;> rfl)).1
      [.SIGHUP, .SIGINT, .SIGHUP],
   (signal_flags bootProc servingProc rfl (by intro fl; cases fl <;> rfl)).2.1
      [.SIGHUP, .SIGINT, .SIGHUP] [.SIGINT, .SIGHUP] (by intro g; cases g <;> simp)⟩

/-- Claim C6, as amended.  For every run of `main` that reaches line 206 with
effective user id 0 and gets past line 224: the configured account resolved to
a user id different from 0, the real and effective group id are that
account's group id, and the effective user id is that account's user id; with
`stayroot` unset the real user id is that account's user id as well; with
`stayroot` set the real user id is what `setuid(geteuid())` at line 206 left:
0 when that call succeeded, and the real user id the process started with when
it failed.  A run of `main` that reaches `httpd_main` enters it with a
non-zero effective user id. -/
theorem privilege_drop_identity (w : World) :
    (∀ s s1, s.ids.euid = 0 → main_privdrop w s = .ret () s1 →
      ∃ name pw, s.user_name = some name ∧ w.passwd name = some pw ∧ pw.pw_uid ≠ 0 ∧
        s1.ids.rgid = pw.pw_gid ∧ s1.ids.egid = pw.pw_gid ∧ s1.ids.euid = pw.pw_uid ∧
        (s.stayroot = 0 → s1.ids.ruid = pw.pw_uid) ∧
        (s.stayroot ≠ 0 → s1.ids.ruid = if w.ok 206 0 then 0 else s.ids.ruid)) ∧
    (∀ opts s0 o s s1, parse_options opts ⟨1, 0, none⟩ s0 = .ret o s → o.version = 0 →
      main_startup w o s = .ret () s1 →
      main w opts s0 = .ret 0 (w.httpd_main (record s1 278 .httpd_main 0)) ∧
      (record s1 278 .httpd_main 0).ids.euid ≠ 0) := by
  refine ⟨fun s s1 h hr => privdrop_root_identity w s s1 h hr, ?_⟩
  intro opts s0 o s s1 hp hv hr
  refine ⟨?_, main_startup_euid w o s s1 hr⟩
  simp [main, hp, Outcome.bind, hv, hr]

/-- Witness for claim C6: the superuser starts the server configured for the
account `www`. -/
theorem privilege_drop_identity_witness :
    ∃ name pw, rootProc.user_name = some name ∧
      (exampleWorld 0).passwd name = some pw ∧ pw.pw_uid ≠ 0 ∧
      (main_privdrop (exampleWorld 0) rootProc).state.ids.rgid = pw.pw_gid ∧
      (main_privdrop (exampleWorld 0) rootProc).state.ids.egid = pw.pw_gid ∧
      (main_privdrop (exampleWorld 0) rootProc).state.ids.euid = pw.pw_uid ∧
      (rootProc.stayroot = 0 →
        (main_privdrop (exampleWorld 0) rootProc).state.ids.ruid = pw.pw_uid) ∧
      (rootProc.stayroot ≠ 0 →
        (main_privdrop (exampleWorld 0) rootProc).state.ids.ruid =
          if (exampleWorld 0).ok 206 0 then 0 else rootProc.ids.ruid) :=
  (privilege_drop_identity (exampleWorld 0)).1 rootProc
    (main_privdrop (exampleWorld 0) rootProc).state rfl rfl

/-- Counterexample to claim C6 as stated.  A set-user-id root binary started by
user 1000, `stayroot` set, and the unchecked `setuid(geteuid())` at line 206
failing: the run gets past the sequence with effective user id 33 and real
user id 1000, not 0. -/
theorem privilege_drop_stayroot_real_uid :
    ({ setuidRootProc with user_name := some "www", stayroot := 1 } : Proc).ids.euid = 0 ∧
    ∃ s1, main_privdrop (failingWorld [206])
        { setuidRootProc with user_name := some "www", stayroot := 1 } = .ret () s1 ∧
      s1.ids.euid = 33 ∧ s1.ids.ruid = 1000 :=
  ⟨rfl, _, rfl, rfl, rfl⟩

/-- Claim C7, as amended.  For every starting identity whose effective user id
is not 0, lines 206-224 fall through and leave the effective user id, the real,
effective and saved group id and the supplementary groups unchanged.  The
real and saved user id are unchanged when `setuid(geteuid())` at line 206
fails, and when the process has no appropriate privileges (it holds no
capability to set user ids and the kernel does not follow the BSD rule for
`setuid`); when the call succeeds with appropriate privileges it sets the
real and saved user id to the effective user id.  In particular the whole
identity is unchanged for a process whose real, effective and saved user id
are equal.  For a starting effective user id of 0 with no `user_name`
configured, the sequence terminates the process with exit status 1 having
changed neither the effective user id, nor the group ids, nor the
supplementary groups; the real user id is left unchanged when it was 0
already or when `setuid(geteuid())` fails, and is set to 0 by that call
otherwise. -/
theorem privilege_drop_noop_or_fatal (w : World) (s : Proc) :
    (s.ids.euid ≠ 0 → ∃ s1, main_privdrop w s = .ret () s1 ∧
      s1.ids.euid = s.ids.euid ∧ s1.ids.rgid = s.ids.rgid ∧ s1.ids.egid = s.ids.egid ∧
      s1.ids.sgid = s.ids.sgid ∧ s1.ids.groups = s.ids.groups ∧
      (w.ok 206 0 = false ∨ (w.cap_setuid = false ∧ w.bsd_setuid = false) → s1.ids = s.ids) ∧
      (w.ok 206 0 = true → w.cap_setuid = true ∨ w.bsd_setuid = true →
        s1.ids.ruid = s.ids.euid ∧ s1.ids.suid = s.ids.euid) ∧
      (s.ids.ruid = s.ids.euid → s.ids.suid = s.ids.euid → s1.ids = s.ids)) ∧
    (s.ids.euid = 0 → s.user_name = none →
      ∃ s1, main_privdrop w s = .exit 1 s1 ∧
        s1.ids.euid = s.ids.euid ∧ s1.ids.rgid = s.ids.rgid ∧ s1.ids.egid = s.ids.egid ∧
        s1.ids.groups = s.ids.groups ∧
        s1.ids.ruid = (if w.ok 206 0 then 0 else s.ids.ruid) ∧
        (s.ids.ruid = 0 → s1.ids.ruid = s.ids.ruid)) := by
  constructor
  · intro h
    obtain ⟨rv, i, hrv, hi, _⟩ := privdrop_nonroot w s h
    refine ⟨_, hrv, ?_⟩
    subst hi
    refine ⟨?_, ?_, ?_, ?_, ?_, ?_, ?_, ?_⟩
    · show (ite _ _ _ : Ids).euid = _
      split <;> rfl
    · show (ite _ _ _ : Ids).rgid = _
      split <;> rfl
    · show (ite _ _ _ : Ids).egid = _
      split <;> rfl
    · show (ite _ _ _ : Ids).sgid = _
      split <;> rfl
    · show (ite _ _ _ : Ids).groups = _
      split <;> rfl
    · intro hno
      show (ite _ _ _ : Ids) = _
      rw [if_neg]
      rintro ⟨hok, hpriv⟩
      rcases hno with hno | ⟨hc, hb⟩
      · rw [hok] at hno; cases hno
      · rcases hpriv with hp | hp
        · rw [hc] at hp; cases hp
        · rw [hb] at hp; cases hp
    · intro hok hpriv
      show (ite _ _ _ : Ids).ruid = _ ∧ (ite _ _ _ : Ids).suid = _
      rw [if_pos ⟨hok, hpriv⟩]
      exact ⟨rfl, rfl⟩
    · intro hr hsv
      show (ite _ _ _ : Ids) = _
      split
      · cases hids : s.ids
        rw [hids] at hr hsv
        simp only at hr hsv
        simp [hr, hsv]
      · rfl
  · intro h hu
    obtain ⟨t, ht, hid, hun, _, _⟩ := privdrop_root w s h
    refine ⟨t, ?_, ?_⟩
    · rw [ht]; simp [main_superuser, hun, hu, die]
    · rw [hid]
      cases w.ok 206 0 <;> simp [h]
      intro h0; exact h0.symm

/-- Witness for claim C7: a process started by user 1000 from a binary that is
set-user-id to account 33, holding the capability to set user ids; the
unprivileged serving identity; and the superuser without a configured account. -/
theorem privilege_drop_noop_or_fatal_witness :
    (∃ s1, main_privdrop capWorld setuidWwwProc = .ret () s1 ∧
      s1.ids.euid = 33 ∧ s1.ids.ruid = 33 ∧ s1.ids.suid = 33 ∧ s1.ids.groups = [1000]) ∧
    (∃ s1, main_privdrop (exampleWorld 0) servingProc = .ret () s1 ∧ s1.ids = servingProc.ids) ∧
    (∃ s1, main_privdrop (exampleWorld 0) bootProc = .exit 1 s1 ∧
        s1.ids.euid = bootProc.ids.euid ∧ s1.ids.rgid = bootProc.ids.rgid ∧
        s1.ids.egid = bootProc.ids.egid ∧ s1.ids.groups = bootProc.ids.groups ∧
        s1.ids.ruid = (if (exampleWorld 0).ok 206 0 then 0 else bootProc.ids.ruid) ∧
        (bootProc.ids.ruid = 0 → s1.ids.ruid = bootProc.ids.ruid)) := by
  refine ⟨?_, ?_, (privilege_drop_noop_or_fatal (exampleWorld 0) bootProc).2 rfl rfl⟩
  · obtain ⟨s1, h1, he, _, _, _, hg, _, hp, _⟩ :=
      (privilege_drop_noop_or_fatal capWorld setuidWwwProc).1 (by decide)
    exact ⟨s1, h1, he, (hp rfl (Or.inl rfl)).1, (hp rfl (Or.inl rfl)).2, hg⟩
  · obtain ⟨s1, h1, _, _, _, _, _, hno, _, _⟩ :=
      (privilege_drop_noop_or_fatal (exampleWorld 0) servingProc).1 (by decide)
    exact ⟨s1, h1, hno (Or.inr ⟨rfl, rfl⟩)⟩

/-- Counterexample to claim C7 as stated.  A set-user-id root binary started by
user 1000 with no `user_name` configured: the sequence terminates with exit
status 1, but `setuid(geteuid())` at line 206 has changed the real user id
from 1000 to 0.  A binary set-user-id to account 33 started by user 1000, in a
process that holds the capability to set user ids, or on a kernel following
the BSD rule: the effective user id is not 0, and `setuid(geteuid())` at line
206 changes the real user id from 1000 to 33. -/
theorem privilege_drop_nouser_real_uid :
    (setuidRootProc.ids.euid = 0 ∧ setuidRootProc.user_name = none ∧
      setuidRootProc.ids.ruid = 1000 ∧
      ∃ s1, main_privdrop (exampleWorld 0) setuidRootProc = .exit 1 s1 ∧ s1.ids.ruid = 0) ∧
    (setuidWwwProc.ids.euid = 33 ∧ setuidWwwProc.ids.ruid = 1000 ∧
      (∃ s1, main_privdrop capWorld setuidWwwProc = .ret () s1 ∧ s1.ids.ruid = 33) ∧
      (∃ s1, main_privdrop bsdWorld setuidWwwProc = .ret () s1 ∧ s1.ids.ruid = 33)) :=
  ⟨⟨rfl, rfl, rfl, _, rfl, rfl⟩, rfl, rfl, ⟨_, rfl, rfl⟩, ⟨_, rfl, rfl⟩⟩

/-- Claim C8, as amended.  Core-dump policy of lines 225-235, for every initial
`RLIMIT_CORE` pair: the hard limit is never changed.  When `coredir` is not
configured and `getrlimit` succeeds the run continues, the soft limit is 0
provided the unchecked `setrlimit` at line 235 succeeds, and the working
directory is `/` provided the unchecked `chdir` at line 233 succeeds.  When
`coredir` is configured the run continues if `getrlimit` and `chdir(coredir)`
succeed, and in every run that continues the working directory is `coredir`
and the soft limit equals the hard limit provided `setrlimit` succeeds. -/
theorem core_dump_policy (w : World) (s : Proc) :
    (main_core w s).state.core.rlim_max = s.core.rlim_max ∧
    (s.coredir = none → w.ok 225 0 = true →
      ∃ s1, main_core w s = .ret () s1 ∧
        (w.ok 235 0 = true → s1.core.rlim_cur = 0) ∧
        (w.ok 233 0 = true → s1.cwd = "/")) ∧
    (∀ d, s.coredir = some d →
      (w.ok 225 0 = true → w.ok 229 0 = true → ∃ s1, main_core w s = .ret () s1) ∧
      (∀ s1, main_core w s = .ret () s1 →
        s1.cwd = d ∧ (w.ok 235 0 = true → s1.core.rlim_cur = s.core.rlim_max))) := by
  refine ⟨?_, ?_, ?_⟩
  · cases hcd : s.coredir <;> cases h225 : w.ok 225 0 <;> cases h229 : w.ok 229 0 <;>
      cases h235 : w.ok 235 0 <;>
      simp [main_core, sys_getrlimit, sys_chdir, sys_setrlimit_core, record, k_plain, die,
        Outcome.state, hcd, h225, h229, h235, k_setrlimit]
  · intro hcd h225
    refine ⟨(main_core w s).state, ?_, ?_, ?_⟩
    · simp [main_core, sys_getrlimit, sys_chdir, sys_setrlimit_core, record, k_plain, die,
        Outcome.state, hcd, h225]
    · intro h235
      simp [main_core, sys_getrlimit, sys_chdir, sys_setrlimit_core, record, k_plain, die,
        Outcome.state, hcd, h225, h235, k_setrlimit]
    · intro h233
      simp [main_core, sys_getrlimit, sys_chdir, sys_setrlimit_core, record, k_plain, die,
        Outcome.state, hcd, h225, h233]
  · intro d hcd
    constructor
    · intro h225 h229
      refine ⟨(main_core w s).state, ?_⟩
      simp [main_core, sys_getrlimit, sys_chdir, sys_setrlimit_core, record, k_plain, die,
        Outcome.state, hcd, h225, h229]
    · intro s1 hr
      cases h225 : w.ok 225 0 <;> cases h229 : w.ok 229 0 <;>
        simp [main_core, sys_getrlimit, sys_chdir, sys_setrlimit_core, record, k_plain, die,
          hcd, h225, h229] at hr
      subst hr
      constructor
      · rfl
      · intro h235
        simp [h235, k_setrlimit]

/-- Witness for claim C8: no `coredir` from a soft limit of 5, and `coredir`
set to `/var/core`. -/
theorem core_dump_policy_witness :
    (∃ s1, main_core (exampleWorld 0) bootProc = .ret () s1 ∧
        ((exampleWorld 0).ok 235 0 = true → s1.core.rlim_cur = 0) ∧
        ((exampleWorld 0).ok 233 0 = true → s1.cwd = "/")) ∧
    (∀ s1, main_core (exampleWorld 0) { bootProc with coredir := some "/var/core" } = .ret () s1 →
        s1.cwd = "/var/core" ∧
        ((exampleWorld 0).ok 235 0 = true →
          s1.core.rlim_cur = ({ bootProc with coredir := some "/var/core" } : Proc).core.rlim_max)) :=
  ⟨(core_dump_policy (exampleWorld 0) bootProc).2.1 rfl rfl,
   ((core_dump_policy (exampleWorld 0) { bootProc with coredir := some "/var/core" }).2.2
      "/var/core" rfl).2⟩

/-- Counterexample to claim C8 as stated.  No `coredir`.  When the unchecked
`chdir("/")` at line 233 fails the run continues with the working directory
still `/home/admin`; when the unchecked `setrlimit` at line 235 fails the run
continues with the soft limit still 5. -/
theorem core_dump_policy_unchecked :
    bootProc.coredir = none ∧
    (∃ s1, main_core (failingWorld [233]) bootProc = .ret () s1 ∧ s1.cwd = "/home/admin") ∧
    (∃ s1, main_core (failingWorld [235]) bootProc = .ret () s1 ∧ s1.core.rlim_cur = 5) :=
  ⟨rfl, ⟨_, rfl, rfl⟩, ⟨_, rfl, rfl⟩⟩

/-- Claim C9, as amended.  Every call whose result `main` and `startup_server`
test before the PID file is opened (the lines of `checkedLines`: `getrlimit`
at 181 and 225, `open` of the null device at 187, `socket`, `setsockopt`,
`bind`, `listen` at 90, 94, 103, 106, `chroot` at 201, `chdir` at 203 and 229,
`getpwnam` at 210, `initgroups` at 213, `setgid` at 215, `seteuid` at 218,
`setuid` at 221) is fatal on failure: if any event `e` of a run of
`main_startup` is such a call and failed, the run ends in exit status 1, no
event of the run is the entry into `httpd_main`, and `main` itself ends in
exit status 1. -/
theorem checked_calls_fatal (w : World) (o : Options) (s : Proc) (l : List Event) (e : Event)
    (hl : (main_startup w o s).state.trace = s.trace ++ l) (he : e ∈ l)
    (hc : e.line ∈ checkedLines) (hf : e.failed) :
    ∃ s1, main_startup w o s = .exit 1 s1 ∧ (∀ x ∈ l, x.call ≠ .httpd_main) ∧
      (∀ opts s0, parse_options opts ⟨1, 0, none⟩ s0 = .ret o s → o.version = 0 →
        main w opts s0 = .exit 1 s1) := by
  obtain ⟨l1, h1, sh, g⟩ := main_startup_spec w o s
  have : l = l1 := List.append_cancel_left (hl.symm.trans h1)
  subst this
  rcases g with ⟨s1, hs1⟩ | hcl
  · refine ⟨s1, hs1, shape_no_httpd w l sh, ?_⟩
    intro opts s0 hp hv
    simp [main, hp, Outcome.bind, hv, hs1]
  · exact absurd hf (hcl e he hc)

/-- Witness for claim C9: `bind` fails for the listener on port 8080. -/
theorem checked_calls_fatal_witness :
    ∃ s1, main_startup (failingWorld [103]) ⟨0, 0, none⟩ bootProc = .exit 1 s1 ∧
      (∀ x ∈ (main_startup (failingWorld [103]) ⟨0, 0, none⟩ bootProc).state.trace,
        x.call ≠ .httpd_main) ∧
      (∀ opts s0, parse_options opts ⟨1, 0, none⟩ s0 = .ret ⟨0, 0, none⟩ bootProc →
        (⟨0, 0, none⟩ : Options).version = 0 →
        main (failingWorld [103]) opts s0 = .exit 1 s1) :=
  checked_calls_fatal (failingWorld [103]) ⟨0, 0, none⟩ bootProc
    (main_startup (failingWorld [103]) ⟨0, 0, none⟩ bootProc).state.trace
    ⟨103, .bind 4 0 8080, -1⟩ rfl (by decide) (by decide) rfl

/-- Counterexample to claim C9 as stated.  All six calls whose result the code
ignores fail in one run (`setrlimit` at 184 and 235, `fcntl` at 97 and 98,
`setuid(geteuid())` at 206, `chdir("/")` at 233), and `main` still reaches
`httpd_main` and returns 0. -/
theorem unchecked_calls_continue :
    ∃ s1, main (failingWorld [184, 97, 98, 206, 233, 235]) [.n] bootProc = .ret 0 s1 ∧
      (⟨184, .setrlimit .RLIMIT_NOFILE 16 16, -1⟩ ∈ s1.trace ∧
       ⟨97, .fcntl 4 .F_SETFD_CLOEXEC, -1⟩ ∈ s1.trace ∧
       ⟨98, .fcntl 4 .F_SETFL_NONBLOCK, -1⟩ ∈ s1.trace ∧
       ⟨206, .setuid 0, -1⟩ ∈ s1.trace ∧
       ⟨233, .chdir "/", -1⟩ ∈ s1.trace ∧
       ⟨235, .setrlimit .RLIMIT_CORE 0 1000, -1⟩ ∈ s1.trace ∧
       ⟨278, .httpd_main, 0⟩ ∈ s1.trace) :=
  ⟨_, rfl, by decide⟩

/-- Claim C10.  Ordering of the privileged sequence: for every configuration and
every outcome of the calls, whenever an event `e` of a run of `main_startup`
comes after the events `pre`: if `e` is a `chroot`, no `chdir` and no
identity-changing call (`setuid`, `seteuid`, `setgid`, `initgroups`) is among
`pre`; if `e` is the call that sets the user id to the target account (line
218 or 221), it is `seteuid` or `setuid` with the `pw_uid` of an account whose
`initgroups` and then `setgid` calls both succeeded among `pre`, in that
order; and every `setuid` or `seteuid` call is either `setuid(geteuid())` at
line 206 or that target call. -/
theorem privileged_sequence_order (w : World) (o : Options) (s : Proc) (pre post : List Event)
    (e : Event)
    (hl : (main_startup w o s).state.trace = s.trace ++ (pre ++ e :: post)) :
    (e.call.isChroot = true →
      ∀ x ∈ pre, x.call.isChdir = false ∧ x.call.changesIdentity = false) ∧
    (e.isTarget → GroupsFirst w pre e) ∧
    (∀ u, e.call = .setuid u ∨ e.call = .seteuid u → e.line = 206 ∨ e.isTarget) := by
  obtain ⟨l1, h1, sh, _⟩ := main_startup_spec w o s
  have hl1 : l1 = pre ++ e :: post := List.append_cancel_left (h1.symm.trans hl)
  subst hl1
  refine ⟨?_, ?_, ?_⟩
  · intro hc
    exact shape_chroot w _ sh pre e post rfl hc
  · intro ht
    exact shape_target w _ sh pre e post rfl ht
  · exact shape_setuid w _ sh e (by simp)

/-- Witness for claim C10: the run with a jail root configured; its 24th call is
`chroot` and its 32nd call is `setuid(33)`. -/
theorem privileged_sequence_order_witness :
    (∀ x ∈ jailTrace.take 23, x.call.isChdir = false ∧ x.call.changesIdentity = false) ∧
    GroupsFirst jailWorld (jailTrace.take 31) ⟨221, .setuid 33, 0⟩ :=
  ⟨(privileged_sequence_order jailWorld ⟨0, 0, none⟩ bootProc (jailTrace.take 23)
      (jailTrace.drop 24) ⟨201, .chroot "/var/www", 0⟩ rfl).1 rfl,
   (privileged_sequence_order jailWorld ⟨0, 0, none⟩ bootProc (jailTrace.take 31)
      (jailTrace.drop 32) ⟨221, .setuid 33, 0⟩ rfl).2.1 (Or.inr rfl)⟩

end Mathopd
